import Mathlib

/-!
# ChainConstraintModule: chain profile, LOD resolution and chain instance

A shallow embedding of `ChainProfile.h/.cpp` and `ChainInstanceActor.h/.cpp`.

* `float` values are the IEEE values that matter for comparisons: NaN, the two
  infinities and the finite values (carried as rationals; `-0` and `+0` compare
  equal and are one value here).  Only comparisons are ever performed on them.
* `int32` values are `Int`; the only arithmetic is `FMath::Max(2, x)` and
  `x - 1` on a value that is at least 2, neither of which can overflow.
* A null pointer is `none`.  A read through a null pointer or an array access
  outside the array is a fault, and a function that can fault returns `Option`.
-/

namespace ChainConstraint

/-! ## Engine value types -/

/-- A `float`: NaN, minus infinity, a finite value, or plus infinity. -/
inductive FFloat where
  | nan
  | negInf
  | finite (q : ℚ)
  | posInf
  deriving DecidableEq

instance : OfNat FFloat n := ⟨FFloat.finite n⟩

/-- The comparison `a < b` on floats: false as soon as one side is NaN. -/
def FFloat.lt : FFloat → FFloat → Bool
  | .nan, _ => false
  | _, .nan => false
  | _, .negInf => false
  | .negInf, _ => true
  | .finite a, .finite b => decide (a < b)
  | .finite _, .posInf => true
  | .posInf, _ => false

/-- The comparison `a <= b` on floats: false as soon as one side is NaN. -/
def FFloat.le : FFloat → FFloat → Bool
  | .nan, _ => false
  | _, .nan => false
  | .negInf, _ => true
  | .finite _, .negInf => false
  | .finite a, .finite b => decide (a ≤ b)
  | .finite _, .posInf => true
  | .posInf, .posInf => true
  | .posInf, _ => false

/-- The comparison `a >= b` on floats. -/
def FFloat.ge (a b : FFloat) : Bool := FFloat.le b a

/-- The comparison `a > b` on floats. -/
def FFloat.gt (a b : FFloat) : Bool := FFloat.lt b a

/-- `FMath::Max` on `float`, the engine's `(B < A) ? A : B`. -/
def FMath.MaxFloat (A B : FFloat) : FFloat := if FFloat.lt B A then A else B

/-- `FMath::Max` on `int32`, the engine's `(B < A) ? A : B`. -/
def FMath.Max (A B : Int) : Int := if B < A then A else B

/-- The engine constant `INDEX_NONE`. -/
def INDEX_NONE : Int := -1

/-- An `FName`: `NAME_None` or an interned text. -/
inductive FName where
  | NAME_None
  | Text (s : String)
  deriving DecidableEq

/-- An `FVector`. -/
structure FVector where
  X : FFloat
  Y : FFloat
  Z : FFloat
  deriving DecidableEq

/-- The constant `FVector::ZeroVector`. -/
def FVector.ZeroVector : FVector := ⟨0, 0, 0⟩

/-- An `FQuat`. -/
structure FQuat where
  X : FFloat
  Y : FFloat
  Z : FFloat
  W : FFloat
  deriving DecidableEq

/-- An `FTransform`: rotation, translation and scale. -/
structure FTransform where
  Rotation : FQuat
  Translation : FVector
  Scale3D : FVector
  deriving DecidableEq

/-- The constant `FTransform::Identity`. -/
def FTransform.Identity : FTransform := ⟨⟨0, 0, 0, 1⟩, ⟨0, 0, 0⟩, ⟨1, 1, 1⟩⟩

/-- The engine's `ECollisionChannel`, as its byte value. -/
abbrev ECollisionChannel := Nat

/-- The channel `ECC_PhysicsBody`. -/
def ECC_PhysicsBody : ECollisionChannel := 4

/-- A `UStaticMesh` asset, referred to by a handle. -/
abbrev UStaticMesh := Nat

/-! ## ChainProfile.h -/

/-- The enum `EChainType`. -/
inductive EChainType where
  | Rope | MetalChain | Grapple | Restraint | Custom
  deriving DecidableEq

/-- The enum `EChainNetworkMode`. -/
inductive EChainNetworkMode where
  | FullRep | KeyLinksRep | None
  deriving DecidableEq

/-- The struct `FChainVisualSettings`. -/
structure FChainVisualSettings where
  LinkMesh : Option UStaticMesh := none
  LinkRelativeTransform : FTransform := FTransform.Identity
  DefaultSegmentCount : Int := 8
  DefaultLength : FFloat := 500
  bUniformSegmentLength : Bool := true
  deriving DecidableEq

/-- The struct `FChainLinkPhysicsSettings`. -/
structure FChainLinkPhysicsSettings where
  LinkMass : FFloat := 1
  LinearDamping : FFloat := .finite (1 / 10)
  AngularDamping : FFloat := .finite (1 / 10)
  CollisionChannel : ECollisionChannel := ECC_PhysicsBody
  CollisionProfileName : FName := .NAME_None
  bEnableSelfCollision : Bool := false
  deriving DecidableEq

/-- The struct `FChainConstraintSettings`. -/
structure FChainConstraintSettings where
  bEnableSwing : Bool := true
  MaxSwingAngle : FFloat := 45
  bEnableTwist : Bool := false
  MaxTwistAngle : FFloat := 20
  LinearLimit : FFloat := 0
  LinearStiffness : FFloat := 50000
  AngularStiffness : FFloat := 50000
  BreakForce : FFloat := 0
  BreakTorque : FFloat := 0
  deriving DecidableEq

/-- The struct `FChainLODLevel`. -/
structure FChainLODLevel where
  MinDistance : FFloat := 0
  MaxDistance : FFloat := 10000
  SegmentCountOverride : Int := 0
  bSimulatePhysics : Bool := true
  bEnableCollisions : Bool := true
  SimulationRateFactor : FFloat := 1
  deriving DecidableEq

/-- The struct `FChainNetworkSettings`. -/
structure FChainNetworkSettings where
  NetworkMode : EChainNetworkMode := .KeyLinksRep
  bReplicateRootTransform : Bool := true
  ReplicatedKeyLinksCount : Int := 2
  deriving DecidableEq

/-- The class `UChainProfile` (its data members). -/
structure UChainProfile where
  ChainType : EChainType := .Rope
  Visual : FChainVisualSettings := {}
  Physics : FChainLinkPhysicsSettings := {}
  Constraint : FChainConstraintSettings := {}
  LODLevels : List FChainLODLevel := []
  NetworkSettings : FChainNetworkSettings := {}
  bSupportsLooseEnd : Bool := true
  bAllowDynamicLengthChange : Bool := true
  bUseWorldSpaceRestPose : Bool := true
  deriving DecidableEq

/-! ## ChainProfile.cpp -/

/-- The constructor `UChainProfile::UChainProfile`, run on the member
defaults: an empty LOD table gets the single default level. -/
def UChainProfile.construct (P : UChainProfile) : UChainProfile :=
  if P.LODLevels.length = 0 then
    { P with LODLevels := P.LODLevels ++
        [{ MinDistance := 0, MaxDistance := 100000, SegmentCountOverride := 0,
           bSimulatePhysics := true, bEnableCollisions := true,
           SimulationRateFactor := 1 }] }
  else P

/-- `UChainProfile::GetBaseSegmentCount`. -/
def UChainProfile.GetBaseSegmentCount (P : UChainProfile) : Int :=
  FMath.Max 2 P.Visual.DefaultSegmentCount

/-- `UChainProfile::GetBaseLength`. -/
def UChainProfile.GetBaseLength (P : UChainProfile) : FFloat :=
  FMath.MaxFloat 1 P.Visual.DefaultLength

/-- The loop of `GetLODIndexForDistance`, entered at `Index` with the levels
from `Index` on still to visit. -/
def GetLODIndexForDistance.loop (SafeDistance : FFloat) :
    List FChainLODLevel → Nat → Int
  | [], _ => INDEX_NONE
  | LOD :: rest, Index =>
    if FFloat.ge SafeDistance LOD.MinDistance && FFloat.le SafeDistance LOD.MaxDistance then
      (Index : Int)
    else
      GetLODIndexForDistance.loop SafeDistance rest (Index + 1)

/-- `UChainProfile::GetLODIndexForDistance`. -/
def UChainProfile.GetLODIndexForDistance (P : UChainProfile) (Distance : FFloat) : Int :=
  let SafeDistance := FMath.MaxFloat 0 Distance
  GetLODIndexForDistance.loop SafeDistance P.LODLevels 0

/-- The checked array access `Array[Index]` with an `int32` index: `none`
when the index is negative or not below the length. -/
def TArray.get? {α : Type} (Array : List α) (Index : Int) : Option α :=
  if 0 ≤ Index then Array[Index.toNat]? else none

/-- `UChainProfile::GetSegmentCountAtDistance`; `none` is a table access out
of bounds. -/
def UChainProfile.GetSegmentCountAtDistance (P : UChainProfile) (Distance : FFloat) :
    Option Int :=
  let BaseSegments := P.GetBaseSegmentCount
  let LODIndex := P.GetLODIndexForDistance Distance
  if LODIndex = INDEX_NONE then
    some BaseSegments
  else
    match TArray.get? P.LODLevels LODIndex with
    | none => none
    | some LOD =>
      if LOD.SegmentCountOverride ≤ 0 then
        some BaseSegments
      else
        some (FMath.Max 2 LOD.SegmentCountOverride)

/-! ## Engine components

The engine classes are not part of the repository.  A component is carried
as a record of what the code has done to it: every attribute holds the value
of the last setter call, `none` when no setter has been called since
`NewObject`.  Each created object gets its identity from the allocation
counter of the owning actor.  An array entry is the component itself (the
arrays own their components and `BuildChain` stores each one exactly once);
`none` is a null entry.  A write through the pointer stored at an index is
the change of that entry, which is exact as long as no object sits at two
indices: `ChainWellFormed` states this, and it holds in every state the
class produces. -/

/-- Modelled from the spec: the external attachment target of an anchor (a
handle with named sockets), given by the two locations the code can read. -/
structure USceneComponent where
  ObjectId : Nat
  ComponentLocation : FVector
  SocketLocations : List (FName × FVector)
  deriving DecidableEq

/-- Engine `GetComponentLocation`. -/
def USceneComponent.GetComponentLocation (C : USceneComponent) : FVector :=
  C.ComponentLocation

/-- Engine `GetSocketLocation`: the location of the named socket, the
component's own location when it has no such socket. -/
def USceneComponent.GetSocketLocation (C : USceneComponent) (SocketName : FName) : FVector :=
  match C.SocketLocations.find? (fun p => decide (p.1 = SocketName)) with
  | some p => p.2
  | none => C.ComponentLocation

/-- The two `FAttachmentTransformRules` the code uses. -/
inductive FAttachmentTransformRules where
  | SnapToTargetIncludingScale
  | KeepWorldTransform
  deriving DecidableEq

/-- Where a component is attached: nowhere yet, to the actor's
`RootComponent` (`SetupAttachment`), or to an external component
(`AttachToComponent`). -/
inductive FAttachment where
  | Unattached
  | RootComponent
  | Component (Parent : USceneComponent) (Rules : FAttachmentTransformRules)
      (SocketName : FName)
  deriving DecidableEq

/-- The engine enum `ECollisionEnabled`. -/
inductive ECollisionEnabled where
  | NoCollision | QueryOnly | PhysicsOnly | QueryAndPhysics
  deriving DecidableEq

/-- The engine enum of constraint motions (`ACM_Free`, `ACM_Limited`,
`ACM_Locked`). -/
inductive EAngularConstraintMotion where
  | ACM_Free | ACM_Limited | ACM_Locked
  deriving DecidableEq

/-- Modelled from the spec: the physical-body abstraction (a link), as the
record of the setter calls made on it. -/
structure UStaticMeshComponent where
  ObjectId : Nat
  Name : FName
  Attachment : FAttachment := .Unattached
  bRegistered : Bool := false
  StaticMesh : Option (Option UStaticMesh) := none
  RelativeTransform : Option FTransform := none
  bSimulatePhysics : Option Bool := none
  MassOverrideInKg : Option (FName × FFloat × Bool) := none
  LinearDamping : Option FFloat := none
  AngularDamping : Option FFloat := none
  CollisionProfileName : Option FName := none
  CollisionObjectType : Option ECollisionChannel := none
  bNotifyRigidBodyCollision : Option Bool := none
  CollisionEnabled : Option ECollisionEnabled := none
  bVisible : Option Bool := none
  WorldLocation : Option FVector := none
  deriving DecidableEq

/-- Modelled from the spec: the joint abstraction, as the record of the
setter calls made on it.  The constrained components are pointers, kept as
the identities of the objects pointed to (`none` for a null pointer). -/
structure UPhysicsConstraintComponent where
  ObjectId : Nat
  Name : FName
  Attachment : FAttachment := .Unattached
  bRegistered : Bool := false
  ConstrainedComponent1 : Option Nat := none
  ConstrainedBone1 : FName := .NAME_None
  ConstrainedComponent2 : Option Nat := none
  ConstrainedBone2 : FName := .NAME_None
  AngularSwing1Limit : Option (EAngularConstraintMotion × FFloat) := none
  AngularSwing2Limit : Option (EAngularConstraintMotion × FFloat) := none
  AngularTwistLimit : Option (EAngularConstraintMotion × FFloat) := none
  LinearXLimit : Option (EAngularConstraintMotion × FFloat) := none
  LinearYLimit : Option (EAngularConstraintMotion × FFloat) := none
  LinearZLimit : Option (EAngularConstraintMotion × FFloat) := none
  LinearDriveParams : Option (FFloat × FFloat × FFloat) := none
  AngularDriveParams : Option (FFloat × FFloat × FFloat) := none
  LinearBreakThreshold : Option FFloat := none
  AngularBreakThreshold : Option FFloat := none
  bBroken : Bool := false
  deriving DecidableEq

/-- Engine `NewObject<UStaticMeshComponent>(this, Name)`, given the identity
the allocator hands out. -/
def NewObject.UStaticMeshComponent (ObjectId : Nat) (Name : FName) : UStaticMeshComponent :=
  { ObjectId := ObjectId, Name := Name }

/-- Engine `NewObject<UPhysicsConstraintComponent>(this, Name)`, given the
identity the allocator hands out. -/
def NewObject.UPhysicsConstraintComponent (ObjectId : Nat) (Name : FName) :
    UPhysicsConstraintComponent :=
  { ObjectId := ObjectId, Name := Name }

/-- Engine `SetWorldLocation`. -/
def UStaticMeshComponent.SetWorldLocation (Link : UStaticMeshComponent) (NewLocation : FVector) :
    UStaticMeshComponent :=
  { Link with WorldLocation := some NewLocation }

/-- Engine `AttachToComponent`. -/
def UStaticMeshComponent.AttachToComponent (Link : UStaticMeshComponent)
    (Parent : USceneComponent) (Rules : FAttachmentTransformRules) (SocketName : FName) :
    UStaticMeshComponent :=
  { Link with Attachment := .Component Parent Rules SocketName }

/-- Engine `BreakConstraint`. -/
def UPhysicsConstraintComponent.BreakConstraint (C : UPhysicsConstraintComponent) :
    UPhysicsConstraintComponent :=
  { C with bBroken := true }

/-- The address held by a pointer to a link: the identity of the object,
`none` for a null pointer. -/
def pointerTo (Link : Option UStaticMeshComponent) : Option Nat :=
  Link.map (fun L => L.ObjectId)

/-- Engine `TArray::IsValidIndex`. -/
def TArray.IsValidIndex {α : Type} (Array : List α) (Index : Int) : Bool :=
  decide (0 ≤ Index) && decide (Index < (Array.length : Int))

/-- A write through the pointer stored at `Array[Index]`: the object pointed
to is replaced by `f` of it.  `none` when the index is out of bounds or the
pointer is null. -/
def TArray.updateAt {α : Type} (Array : List (Option α)) (Index : Nat) (f : α → α) :
    Option (List (Option α)) :=
  match Array[Index]? with
  | some (some x) => some (Array.set Index (some (f x)))
  | _ => none

/-! ## ChainInstanceActor.h -/

/-- The struct `FChainAnchor`. -/
structure FChainAnchor where
  Component : Option USceneComponent := none
  SocketName : FName := .NAME_None
  WorldLocation : FVector := FVector.ZeroVector
  bUseWorldLocation : Bool := true
  deriving DecidableEq

/-- `FChainAnchor::ResolveLocation`. -/
def FChainAnchor.ResolveLocation (A : FChainAnchor) : FVector :=
  match A.Component with
  | none => A.WorldLocation
  | some C =>
    if A.SocketName ≠ .NAME_None then C.GetSocketLocation A.SocketName
    else C.GetComponentLocation

/-- A line written by `UE_LOG`. -/
inductive FLogLine where
  | Warning (Text : String)
  deriving DecidableEq

/-- The class `AChainInstanceActor`: its data members, and the parts of the
engine state its methods act on (the authority of the actor, the allocation
counter of `NewObject`, the identities of the components destroyed so far,
the log). -/
structure AChainInstanceActor where
  Profile : Option UChainProfile := none
  StartAnchor : FChainAnchor := {}
  EndAnchor : FChainAnchor := {}
  bAutoRebuild : Bool := false
  CurrentSegmentCount : Int := 0
  LinkComponents : List (Option UStaticMeshComponent) := []
  ConstraintComponents : List (Option UPhysicsConstraintComponent) := []
  bHasAuthority : Bool := true
  NextObjectId : Nat := 0
  DestroyedObjects : List Nat := []
  Log : List FLogLine := []
  deriving DecidableEq

/-! ## ChainInstanceActor.cpp -/

/-- `AChainInstanceActor::ApplyProfileToLink`: the link after the call (a null
link stays null). -/
def AChainInstanceActor.ApplyProfileToLink (s : AChainInstanceActor)
    (Link : Option UStaticMeshComponent) : Option UStaticMeshComponent :=
  match Link, s.Profile with
  | some Link, some Profile =>
    let Phys := Profile.Physics
    let Vis := Profile.Visual
    let Link := { Link with StaticMesh := some Vis.LinkMesh }
    let Link := { Link with RelativeTransform := some Vis.LinkRelativeTransform }
    let Link := { Link with bSimulatePhysics := some true }
    let Link := { Link with MassOverrideInKg := some (.NAME_None, Phys.LinkMass, true) }
    let Link := { Link with LinearDamping := some Phys.LinearDamping }
    let Link := { Link with AngularDamping := some Phys.AngularDamping }
    let Link :=
      if Phys.CollisionProfileName ≠ .NAME_None then
        { Link with CollisionProfileName := some Phys.CollisionProfileName }
      else
        { Link with CollisionObjectType := some Phys.CollisionChannel }
    let Link := { Link with bNotifyRigidBodyCollision := some true }
    let Link := { Link with CollisionEnabled := some .QueryAndPhysics }
    let Link := { Link with bVisible := some true }
    some Link
  | Link, _ => Link

/-- `AChainInstanceActor::ApplyProfileToConstraint`: the constraint after the
call (a null constraint stays null). -/
def AChainInstanceActor.ApplyProfileToConstraint (s : AChainInstanceActor)
    (Constraint : Option UPhysicsConstraintComponent) : Option UPhysicsConstraintComponent :=
  match Constraint, s.Profile with
  | some Constraint, some Profile =>
    let C := Profile.Constraint
    let SwingMotion : EAngularConstraintMotion :=
      if C.bEnableSwing then .ACM_Limited else .ACM_Free
    let TwistMotion : EAngularConstraintMotion :=
      if C.bEnableTwist then .ACM_Limited else .ACM_Free
    let Constraint := { Constraint with AngularSwing1Limit := some (SwingMotion, C.MaxSwingAngle) }
    let Constraint := { Constraint with AngularSwing2Limit := some (SwingMotion, C.MaxSwingAngle) }
    let Constraint := { Constraint with AngularTwistLimit := some (TwistMotion, C.MaxTwistAngle) }
    let Constraint :=
      if FFloat.gt C.LinearLimit 0 then
        { Constraint with
          LinearXLimit := some (.ACM_Limited, C.LinearLimit),
          LinearYLimit := some (.ACM_Limited, C.LinearLimit),
          LinearZLimit := some (.ACM_Limited, C.LinearLimit) }
      else
        { Constraint with
          LinearXLimit := some (.ACM_Free, 0),
          LinearYLimit := some (.ACM_Free, 0),
          LinearZLimit := some (.ACM_Free, 0) }
    let Constraint := { Constraint with LinearDriveParams := some (C.LinearStiffness, 0, 0) }
    let Constraint := { Constraint with AngularDriveParams := some (C.AngularStiffness, 0, 0) }
    let Constraint := { Constraint with LinearBreakThreshold := some C.BreakForce }
    let Constraint := { Constraint with AngularBreakThreshold := some C.BreakTorque }
    some Constraint
  | Constraint, _ => Constraint

/-- `AChainInstanceActor::ClearChain`: every non-null component of either
array is destroyed, and both arrays are emptied. -/
def AChainInstanceActor.ClearChain (s : AChainInstanceActor) : AChainInstanceActor :=
  let DestroyedLinks := s.LinkComponents.filterMap (Option.map UStaticMeshComponent.ObjectId)
  let s := { s with DestroyedObjects := s.DestroyedObjects ++ DestroyedLinks }
  let s := { s with LinkComponents := [] }
  let DestroyedConstraints :=
    s.ConstraintComponents.filterMap (Option.map UPhysicsConstraintComponent.ObjectId)
  let s := { s with DestroyedObjects := s.DestroyedObjects ++ DestroyedConstraints }
  { s with ConstraintComponents := [] }

/-- The body of the first loop of `BuildChain`, at index `i`. -/
def BuildChain.createLink (s : AChainInstanceActor) (i : Nat) : AChainInstanceActor :=
  let CompName := FName.Text ("Link_" ++ toString i)
  let Link := NewObject.UStaticMeshComponent s.NextObjectId CompName
  let s := { s with NextObjectId := s.NextObjectId + 1 }
  let Link := { Link with Attachment := .RootComponent }
  let Link := { Link with bRegistered := true }
  let Link := s.ApplyProfileToLink (some Link)
  { s with LinkComponents := s.LinkComponents ++ [Link] }

/-- The first loop of `BuildChain`, entered at index `i` with `k` iterations
left before `i` reaches `CurrentSegmentCount`. -/
def BuildChain.linkLoop : Nat → Nat → AChainInstanceActor → AChainInstanceActor
  | 0, _, s => s
  | k + 1, i, s => BuildChain.linkLoop k (i + 1) (BuildChain.createLink s i)

/-- The body of the second loop of `BuildChain`, at index `i`; `none` when
`LinkComponents[i]` or `LinkComponents[i + 1]` is out of bounds. -/
def BuildChain.createConstraint (s : AChainInstanceActor) (i : Nat) :
    Option AChainInstanceActor :=
  let CName := FName.Text ("Constraint_" ++ toString i)
  let Constraint := NewObject.UPhysicsConstraintComponent s.NextObjectId CName
  let s := { s with NextObjectId := s.NextObjectId + 1 }
  let Constraint := { Constraint with Attachment := .RootComponent }
  let Constraint := { Constraint with bRegistered := true }
  match s.LinkComponents[i]?, s.LinkComponents[i + 1]? with
  | some Link1, some Link2 =>
    let Constraint := { Constraint with
      ConstrainedComponent1 := pointerTo Link1, ConstrainedBone1 := .NAME_None,
      ConstrainedComponent2 := pointerTo Link2, ConstrainedBone2 := .NAME_None }
    let Constraint := s.ApplyProfileToConstraint (some Constraint)
    some { s with ConstraintComponents := s.ConstraintComponents ++ [Constraint] }
  | _, _ => none

/-- The second loop of `BuildChain`, entered at index `i` with `k` iterations
left before `i` reaches `CurrentSegmentCount - 1`. -/
def BuildChain.constraintLoop : Nat → Nat → AChainInstanceActor → Option AChainInstanceActor
  | 0, _, s => some s
  | k + 1, i, s =>
    match BuildChain.createConstraint s i with
    | none => none
    | some s => BuildChain.constraintLoop k (i + 1) s

/-- `AChainInstanceActor::BuildChain`. -/
def AChainInstanceActor.BuildChain (s : AChainInstanceActor) : Option AChainInstanceActor :=
  match s.Profile with
  | none => some s
  | some Profile =>
    let s := { s with CurrentSegmentCount := Profile.Visual.DefaultSegmentCount }
    let s := { s with CurrentSegmentCount := FMath.Max 2 s.CurrentSegmentCount }
    let s := BuildChain.linkLoop s.CurrentSegmentCount.toNat 0 s
    BuildChain.constraintLoop (s.CurrentSegmentCount - 1).toNat 0 s

/-- The block `Anchor link 0` of `BindAnchors`; `none` when `LinkComponents[0]`
is out of bounds or null. -/
def BindAnchors.anchorLink0 (s : AChainInstanceActor) : Option AChainInstanceActor :=
  if s.StartAnchor.bUseWorldLocation then
    (TArray.updateAt s.LinkComponents 0
      (fun Link => Link.SetWorldLocation s.StartAnchor.WorldLocation)).map
      (fun Links => { s with LinkComponents := Links })
  else
    match s.StartAnchor.Component with
    | some Component =>
      (TArray.updateAt s.LinkComponents 0
        (fun Link => Link.AttachToComponent Component .SnapToTargetIncludingScale
          s.StartAnchor.SocketName)).map
        (fun Links => { s with LinkComponents := Links })
    | none => some s

/-- The block `Anchor last link` of `BindAnchors`; `none` when the profile is
null or the last link is null. -/
def BindAnchors.anchorLastLink (s : AChainInstanceActor) : Option AChainInstanceActor :=
  match s.Profile with
  | none => none
  | some Profile =>
    if Profile.bSupportsLooseEnd == false &&
        TArray.IsValidIndex s.LinkComponents ((s.LinkComponents.length : Int) - 1) then
      match !s.EndAnchor.bUseWorldLocation, s.EndAnchor.Component with
      | true, some Component =>
        (TArray.updateAt s.LinkComponents (s.LinkComponents.length - 1)
          (fun Link => Link.AttachToComponent Component .KeepWorldTransform
            s.EndAnchor.SocketName)).map
          (fun Links => { s with LinkComponents := Links })
      | _, _ =>
        if s.EndAnchor.bUseWorldLocation then
          (TArray.updateAt s.LinkComponents (s.LinkComponents.length - 1)
            (fun Link => Link.SetWorldLocation s.EndAnchor.WorldLocation)).map
            (fun Links => { s with LinkComponents := Links })
        else some s
    else some s

/-- `AChainInstanceActor::BindAnchors`; `none` when a null link or the null
profile is dereferenced. -/
def AChainInstanceActor.BindAnchors (s : AChainInstanceActor) : Option AChainInstanceActor :=
  if s.LinkComponents.length = 0 then some s
  else
    match BindAnchors.anchorLink0 s with
    | none => none
    | some s => BindAnchors.anchorLastLink s

/-- `AChainInstanceActor::RebuildChain`. -/
def AChainInstanceActor.RebuildChain (s : AChainInstanceActor) : Option AChainInstanceActor :=
  match s.ClearChain.BuildChain with
  | none => none
  | some s => s.BindAnchors

/-- `AChainInstanceActor::InitializeFromProfile`. -/
def AChainInstanceActor.InitializeFromProfile (s : AChainInstanceActor) :
    Option AChainInstanceActor :=
  match s.Profile with
  | none => some s
  | some _ => s.RebuildChain

/-- `AChainInstanceActor::BeginPlay`. -/
def AChainInstanceActor.BeginPlay (s : AChainInstanceActor) : Option AChainInstanceActor :=
  if s.bHasAuthority then s.InitializeFromProfile else some s

/-- `AChainInstanceActor::OnConstruction`. -/
def AChainInstanceActor.OnConstruction (s : AChainInstanceActor) (_Transform : FTransform) :
    Option AChainInstanceActor :=
  if s.Profile.isSome && s.bAutoRebuild then s.InitializeFromProfile else some s

/-- `AChainInstanceActor::SetStartAnchor`. -/
def AChainInstanceActor.SetStartAnchor (s : AChainInstanceActor) (NewAnchor : FChainAnchor) :
    Option AChainInstanceActor :=
  let s := { s with StartAnchor := NewAnchor }
  if s.bAutoRebuild then s.RebuildChain else some s

/-- `AChainInstanceActor::SetEndAnchor`. -/
def AChainInstanceActor.SetEndAnchor (s : AChainInstanceActor) (NewAnchor : FChainAnchor) :
    Option AChainInstanceActor :=
  let s := { s with EndAnchor := NewAnchor }
  if s.bAutoRebuild then s.RebuildChain else some s

/-- `AChainInstanceActor::SetTargetLength`. -/
def AChainInstanceActor.SetTargetLength (s : AChainInstanceActor) (_NewLength : FFloat) :
    AChainInstanceActor :=
  match s.Profile with
  | none => s
  | some Profile =>
    if !Profile.bAllowDynamicLengthChange then s
    else { s with Log := s.Log ++ [.Warning "Dynamic length change not implemented yet."] }

/-- `AChainInstanceActor::BreakLink`; `none` when `ConstraintComponents[LinkIndex]`
is out of bounds. -/
def AChainInstanceActor.BreakLink (s : AChainInstanceActor) (LinkIndex : Int) :
    Option AChainInstanceActor :=
  if !TArray.IsValidIndex s.ConstraintComponents LinkIndex then some s
  else
    match TArray.get? s.ConstraintComponents LinkIndex with
    | none => none
    | some none => some s
    | some (some C) =>
      some { s with ConstraintComponents :=
        s.ConstraintComponents.set LinkIndex.toNat (some C.BreakConstraint) }

/-! ## Reference definitions for the LOD resolver -/

/-- The interval test of the specification: `MinDistance <= d <= MaxDistance`,
both bounds inclusive. -/
def FChainLODLevel.Contains (L : FChainLODLevel) (d : FFloat) : Prop :=
  FFloat.le L.MinDistance d = true ∧ FFloat.le d L.MaxDistance = true

instance (L : FChainLODLevel) (d : FFloat) : Decidable (L.Contains d) := by
  unfold FChainLODLevel.Contains; infer_instance

/-- The resolver as the specification words it: take the first level of the
table whose interval contains the clamped distance; without one, or when its
override is not positive, the answer is `max(2, default)`, otherwise
`max(2, override)`. -/
def resolveSegmentCount (P : UChainProfile) (D : FFloat) : Int :=
  match P.LODLevels.find? (fun L => decide (L.Contains (FMath.MaxFloat 0 D))) with
  | none => max 2 P.Visual.DefaultSegmentCount
  | some L =>
    if L.SegmentCountOverride ≤ 0 then max 2 P.Visual.DefaultSegmentCount
    else max 2 L.SegmentCountOverride

/-- The table of the overlap scenario: `[0,100]` with override 4, then
`[50,150]` with override 6. -/
def overlapProfile : UChainProfile :=
  { LODLevels := [{ MinDistance := 0, MaxDistance := 100, SegmentCountOverride := 4 },
                  { MinDistance := 50, MaxDistance := 150, SegmentCountOverride := 6 }] }

/-- A table whose first level `[0,100]` has override 0 and whose second,
overlapping level `[50,150]` has override 6, with default count 5. -/
def shadowProfile : UChainProfile :=
  { Visual := { DefaultSegmentCount := 5 },
    LODLevels := [{ MinDistance := 0, MaxDistance := 100, SegmentCountOverride := 0 },
                  { MinDistance := 50, MaxDistance := 150, SegmentCountOverride := 6 }] }

/-! ## Closed forms of the build loops -/

/-- The link that iteration `i` of the first loop of `BuildChain` creates
when the allocator stands at `id`. -/
def builtLink (Profile : Option UChainProfile) (id i : Nat) : Option UStaticMeshComponent :=
  ({ Profile := Profile } : AChainInstanceActor).ApplyProfileToLink
    (some { NewObject.UStaticMeshComponent id (FName.Text ("Link_" ++ toString i)) with
      Attachment := .RootComponent, bRegistered := true })

/-- The constraint that iteration `i` of the second loop of `BuildChain`
creates when the allocator stands at `id`, between the links pointed to by
`p1` and `p2`. -/
def builtConstraint (Profile : Option UChainProfile) (id i : Nat) (p1 p2 : Option Nat) :
    Option UPhysicsConstraintComponent :=
  ({ Profile := Profile } : AChainInstanceActor).ApplyProfileToConstraint
    (some { NewObject.UPhysicsConstraintComponent id (FName.Text ("Constraint_" ++ toString i)) with
      Attachment := .RootComponent, bRegistered := true,
      ConstrainedComponent1 := p1, ConstrainedBone1 := .NAME_None,
      ConstrainedComponent2 := p2, ConstrainedBone2 := .NAME_None })

/-- The pointer stored at `Links[j]`, `none` when it is null or `j` is out
of bounds. -/
def pointerAt (Links : List (Option UStaticMeshComponent)) (j : Nat) : Option Nat :=
  (Links[j]?).bind pointerTo

/-- The links one build creates: `N` of them, allocated from `n0`. -/
def builtLinks (Profile : Option UChainProfile) (n0 N : Nat) :
    List (Option UStaticMeshComponent) :=
  (List.range N).map (fun j => builtLink Profile (n0 + j) j)

/-- The constraints one build creates over the link array `Links`: `M` of
them, allocated from `n1`. -/
def builtConstraints (Profile : Option UChainProfile) (n1 M : Nat)
    (Links : List (Option UStaticMeshComponent)) : List (Option UPhysicsConstraintComponent) :=
  (List.range M).map (fun j => builtConstraint Profile (n1 + j) j
    (pointerAt Links j) (pointerAt Links (j + 1)))

/-- The state `ClearChain(); BuildChain();` leaves when the profile is `P`. -/
def builtState (s : AChainInstanceActor) (P : UChainProfile) : AChainInstanceActor :=
  { s.ClearChain with
    CurrentSegmentCount := FMath.Max 2 P.Visual.DefaultSegmentCount,
    NextObjectId := s.NextObjectId + (FMath.Max 2 P.Visual.DefaultSegmentCount).toNat +
      ((FMath.Max 2 P.Visual.DefaultSegmentCount).toNat - 1),
    LinkComponents :=
      builtLinks (some P) s.NextObjectId (FMath.Max 2 P.Visual.DefaultSegmentCount).toNat,
    ConstraintComponents :=
      builtConstraints (some P)
        (s.NextObjectId + (FMath.Max 2 P.Visual.DefaultSegmentCount).toNat)
        ((FMath.Max 2 P.Visual.DefaultSegmentCount).toNat - 1)
        (builtLinks (some P) s.NextObjectId (FMath.Max 2 P.Visual.DefaultSegmentCount).toNat) }

/-! ## Operations on a chain instance and its invariant -/

/-- The operations a caller can perform on a chain instance; `SetProfile` is
the assignment of the public `Profile` member between calls. -/
inductive ChainOp where
  | InitializeFromProfile
  | RebuildChain
  | SetStartAnchor (NewAnchor : FChainAnchor)
  | SetEndAnchor (NewAnchor : FChainAnchor)
  | SetTargetLength (NewLength : FFloat)
  | BreakLink (LinkIndex : Int)
  | SetProfile (NewProfile : Option UChainProfile)

/-- The effect of one operation; `none` is a fault. -/
def ChainOp.apply : ChainOp → AChainInstanceActor → Option AChainInstanceActor
  | .InitializeFromProfile, s => s.InitializeFromProfile
  | .RebuildChain, s => s.RebuildChain
  | .SetStartAnchor NewAnchor, s => s.SetStartAnchor NewAnchor
  | .SetEndAnchor NewAnchor, s => s.SetEndAnchor NewAnchor
  | .SetTargetLength NewLength, s => some (s.SetTargetLength NewLength)
  | .BreakLink LinkIndex, s => s.BreakLink LinkIndex
  | .SetProfile NewProfile, s => some { s with Profile := NewProfile }

/-- The effect of a sequence of operations, first to last. -/
def runOps : List ChainOp → AChainInstanceActor → Option AChainInstanceActor
  | [], s => some s
  | op :: ops, s =>
    match op.apply s with
    | none => none
    | some s => runOps ops s

/-- The state invariant of the data model: both lists are empty, or
`|Links| == CurrentSegmentCount` and `|Joints| == |Links| - 1`. -/
def ChainInvariant (s : AChainInstanceActor) : Prop :=
  (s.LinkComponents = [] ∧ s.ConstraintComponents = []) ∨
  ((s.LinkComponents.length : Int) = s.CurrentSegmentCount ∧
    (s.ConstraintComponents.length : Int) = (s.LinkComponents.length : Int) - 1)

/-- A profile with three segments and a bound end. -/
def exampleProfile : UChainProfile :=
  { Visual := { DefaultSegmentCount := 3 }, bSupportsLooseEnd := false }

/-- An empty chain instance with `exampleProfile` and two world-space anchors. -/
def exampleActor : AChainInstanceActor :=
  { Profile := some exampleProfile,
    StartAnchor := { WorldLocation := ⟨1, 2, 3⟩ },
    EndAnchor := { WorldLocation := ⟨4, 5, 6⟩ } }

/-- A chain instance whose only joint entry is null. -/
def nullJointActor : AChainInstanceActor :=
  { LinkComponents := [some { ObjectId := 0, Name := .NAME_None },
                       some { ObjectId := 1, Name := .NAME_None }],
    ConstraintComponents := [none],
    CurrentSegmentCount := 2, NextObjectId := 3 }

/-- A chain instance with one unbroken joint between two links. -/
def oneJointActor : AChainInstanceActor :=
  { LinkComponents := [some { ObjectId := 0, Name := .NAME_None },
                       some { ObjectId := 1, Name := .NAME_None }],
    ConstraintComponents :=
      [some { ObjectId := 2, Name := .NAME_None, ConstrainedComponent1 := some 0,
              ConstrainedComponent2 := some 1 }],
    CurrentSegmentCount := 2, NextObjectId := 3 }

/-- A chain instance with two links, a loose-end profile and a world-space
start anchor at `(1, 2, 3)`. -/
def twoLinkActor : AChainInstanceActor :=
  { Profile := some { bSupportsLooseEnd := true },
    StartAnchor := { WorldLocation := ⟨1, 2, 3⟩ },
    LinkComponents := [some { ObjectId := 0, Name := .NAME_None },
                       some { ObjectId := 1, Name := .NAME_None }],
    CurrentSegmentCount := 2, NextObjectId := 2 }

/-! ## Observation of a chain instance

Two builds allocate different objects, so the states they leave differ in
the identities of the components.  What an observer of the chain sees is the
state with the identities left out and every joint endpoint given as the
index of the link it points to. -/

/-- The index in `Links` of the first link whose identity is `id`. -/
def indexOfObject (id : Nat) : List (Option UStaticMeshComponent) → Option Nat
  | [] => none
  | Link :: rest =>
    if pointerTo Link = some id then some 0
    else (indexOfObject id rest).map (fun k => k + 1)

/-- A link as observed: all its attributes, without its identity. -/
def observeLink (Link : UStaticMeshComponent) : UStaticMeshComponent :=
  { Link with ObjectId := 0 }

/-- A joint as observed: all its attributes, without its identity, and with
each endpoint given as the index of the link pointed to. -/
def observeConstraint (Links : List (Option UStaticMeshComponent))
    (C : UPhysicsConstraintComponent) : UPhysicsConstraintComponent :=
  { C with
    ObjectId := 0,
    ConstrainedComponent1 := C.ConstrainedComponent1.bind (fun id => indexOfObject id Links),
    ConstrainedComponent2 := C.ConstrainedComponent2.bind (fun id => indexOfObject id Links) }

/-- What is observable of a chain instance. -/
structure ChainObservation where
  Profile : Option UChainProfile
  StartAnchor : FChainAnchor
  EndAnchor : FChainAnchor
  bAutoRebuild : Bool
  CurrentSegmentCount : Int
  Links : List (Option UStaticMeshComponent)
  Joints : List (Option UPhysicsConstraintComponent)
  deriving DecidableEq

/-- The observation of a chain instance. -/
def AChainInstanceActor.observe (s : AChainInstanceActor) : ChainObservation :=
  { Profile := s.Profile,
    StartAnchor := s.StartAnchor,
    EndAnchor := s.EndAnchor,
    bAutoRebuild := s.bAutoRebuild,
    CurrentSegmentCount := s.CurrentSegmentCount,
    Links := s.LinkComponents.map (Option.map observeLink),
    Joints := s.ConstraintComponents.map (Option.map (observeConstraint s.LinkComponents)) }

/-- The link `Link` with its identity moved up by `d`. -/
def shiftLink (d : Nat) (Link : UStaticMeshComponent) : UStaticMeshComponent :=
  { Link with ObjectId := Link.ObjectId + d }

/-- The joint `C` with its identity and its two pointers moved up by `d`. -/
def shiftConstraint (d : Nat) (C : UPhysicsConstraintComponent) : UPhysicsConstraintComponent :=
  { C with
    ObjectId := C.ObjectId + d,
    ConstrainedComponent1 := C.ConstrainedComponent1.map (fun id => id + d),
    ConstrainedComponent2 := C.ConstrainedComponent2.map (fun id => id + d) }

/-- The state `a` with every component identity moved up by `d`, the
allocation counter set to `n` and the destroyed identities set to `D`. -/
def relocate (d n : Nat) (D : List Nat) (a : AChainInstanceActor) : AChainInstanceActor :=
  { a with
    LinkComponents := a.LinkComponents.map (Option.map (shiftLink d)),
    ConstraintComponents := a.ConstraintComponents.map (Option.map (shiftConstraint d)),
    NextObjectId := n,
    DestroyedObjects := D }

/-! ## Further example inputs -/

/-- The profile of the scenario: eight segments, the constructor's default LOD
table, and a bound end. -/
def eightSegmentProfile : UChainProfile :=
  UChainProfile.construct { Visual := { DefaultSegmentCount := 8 }, bSupportsLooseEnd := false }

/-- An empty chain instance with `eightSegmentProfile` and two world-space
anchors, at `(1, 2, 3)` and `(4, 5, 6)`. -/
def eightSegmentActor : AChainInstanceActor :=
  { Profile := some eightSegmentProfile,
    StartAnchor := { WorldLocation := ⟨1, 2, 3⟩ },
    EndAnchor := { WorldLocation := ⟨4, 5, 6⟩ } }

/-- An empty chain instance whose profile forbids dynamic length change. -/
def fixedLengthActor : AChainInstanceActor :=
  { Profile := some { bAllowDynamicLengthChange := false } }

/-- An external component located at `(7, 8, 9)`, without sockets. -/
def hookComponent : USceneComponent :=
  { ObjectId := 100, ComponentLocation := ⟨7, 8, 9⟩, SocketLocations := [] }

/-- An anchor flagged as a world location at `(1, 2, 3)` whose `Component`
field is nevertheless set. -/
def flaggedAnchor : FChainAnchor :=
  { Component := some hookComponent, WorldLocation := ⟨1, 2, 3⟩, bUseWorldLocation := true }

/-- The two-link instance `twoLinkActor` with `flaggedAnchor` as its start
anchor. -/
def flaggedAnchorActor : AChainInstanceActor :=
  { twoLinkActor with StartAnchor := flaggedAnchor }

/-- An empty chain instance without authority, with the default profile and
the auto-rebuild flag set. -/
def observerActor : AChainInstanceActor :=
  { Profile := some {}, bAutoRebuild := true, bHasAuthority := false }

/-! ## Reference configurations of joints and links -/

/-- The joint configuration the specification derives from the constraint
settings `C`: swing limits on both swing axes, twist limit, linear limits on
the three axes (all limited to `LinearLimit` when it is positive, all free
otherwise), stiffness-only drives, and break thresholds. -/
def JointConfiguredBy (C : FChainConstraintSettings) (J : UPhysicsConstraintComponent) : Prop :=
  J.AngularSwing1Limit =
    some ((if C.bEnableSwing = true then EAngularConstraintMotion.ACM_Limited
      else EAngularConstraintMotion.ACM_Free), C.MaxSwingAngle) ∧
  J.AngularSwing2Limit =
    some ((if C.bEnableSwing = true then EAngularConstraintMotion.ACM_Limited
      else EAngularConstraintMotion.ACM_Free), C.MaxSwingAngle) ∧
  J.AngularTwistLimit =
    some ((if C.bEnableTwist = true then EAngularConstraintMotion.ACM_Limited
      else EAngularConstraintMotion.ACM_Free), C.MaxTwistAngle) ∧
  (FFloat.gt C.LinearLimit 0 = true →
    J.LinearXLimit = some (.ACM_Limited, C.LinearLimit) ∧
    J.LinearYLimit = some (.ACM_Limited, C.LinearLimit) ∧
    J.LinearZLimit = some (.ACM_Limited, C.LinearLimit)) ∧
  (FFloat.gt C.LinearLimit 0 = false →
    J.LinearXLimit = some (.ACM_Free, 0) ∧
    J.LinearYLimit = some (.ACM_Free, 0) ∧
    J.LinearZLimit = some (.ACM_Free, 0)) ∧
  J.LinearDriveParams = some (C.LinearStiffness, 0, 0) ∧
  J.AngularDriveParams = some (C.AngularStiffness, 0, 0) ∧
  J.LinearBreakThreshold = some C.BreakForce ∧
  J.AngularBreakThreshold = some C.BreakTorque

/-- The link configuration the specification derives from the profile `P`:
mesh and relative transform of the visual settings, simulation on, mass,
dampings, collision enabled for query and physics, visible, and as collision
classification the named collision profile when one is set (the channel is
then not applied) and the collision channel otherwise. -/
def LinkConfiguredBy (P : UChainProfile) (L : UStaticMeshComponent) : Prop :=
  L.StaticMesh = some P.Visual.LinkMesh ∧
  L.RelativeTransform = some P.Visual.LinkRelativeTransform ∧
  L.bSimulatePhysics = some true ∧
  L.MassOverrideInKg = some (.NAME_None, P.Physics.LinkMass, true) ∧
  L.LinearDamping = some P.Physics.LinearDamping ∧
  L.AngularDamping = some P.Physics.AngularDamping ∧
  L.CollisionEnabled = some .QueryAndPhysics ∧
  L.bVisible = some true ∧
  (P.Physics.CollisionProfileName ≠ .NAME_None →
    L.CollisionProfileName = some P.Physics.CollisionProfileName ∧
    L.CollisionObjectType = none) ∧
  (P.Physics.CollisionProfileName = .NAME_None →
    L.CollisionObjectType = some P.Physics.CollisionChannel ∧
    L.CollisionProfileName = none)

/-- An empty chain instance whose profile names the collision profile
`"Rope"` and limits the linear axes to 5. -/
def ropeActor : AChainInstanceActor :=
  { Profile := some { Physics := { CollisionProfileName := .Text "Rope" },
                      Constraint := { LinearLimit := 5 } } }

/-! ## Degenerate LOD levels -/

/-- A degenerate level: `MinDistance > MaxDistance`. -/
def FChainLODLevel.Degenerate (L : FChainLODLevel) : Bool :=
  FFloat.gt L.MinDistance L.MaxDistance

/-- The profile with every degenerate level removed from its LOD table, the
order of the remaining levels kept. -/
def UChainProfile.withoutDegenerate (P : UChainProfile) : UChainProfile :=
  { P with LODLevels := P.LODLevels.filter (fun L => !L.Degenerate) }

/-- A table that opens with a degenerate level `[200, 100]` (override 9),
followed by `[0, 1000]` (override 4). -/
def degenerateProfile : UChainProfile :=
  { LODLevels := [{ MinDistance := 200, MaxDistance := 100, SegmentCountOverride := 9 },
                  { MinDistance := 0, MaxDistance := 1000, SegmentCountOverride := 4 }] }

/-- A chain instance without profile that still holds one link. -/
def orphanLinkActor : AChainInstanceActor :=
  { Profile := none,
    LinkComponents := [some { ObjectId := 0, Name := .NAME_None }],
    CurrentSegmentCount := 1, NextObjectId := 1 }

/-! ## States the class produces

`BuildChain` stores every component it creates in exactly one array entry
and nothing else writes entries, so in a state reached through the class's
own operations no entry is null and no object sits at two indices: a write
through the pointer at one index is then a change of that one entry. -/

/-- Well-formedness of the two arrays: no entry is null, and two entries of
an array that hold the same object are the same entry. -/
def ChainWellFormed (s : AChainInstanceActor) : Prop :=
  (∀ x ∈ s.LinkComponents, x ≠ none) ∧
  (∀ x ∈ s.ConstraintComponents, x ≠ none) ∧
  (∀ (i j : Nat) (L1 L2 : UStaticMeshComponent),
    s.LinkComponents[i]? = some (some L1) → s.LinkComponents[j]? = some (some L2) →
    L1.ObjectId = L2.ObjectId → i = j) ∧
  (∀ (i j : Nat) (J1 J2 : UPhysicsConstraintComponent),
    s.ConstraintComponents[i]? = some (some J1) → s.ConstraintComponents[j]? = some (some J2) →
    J1.ObjectId = J2.ObjectId → i = j)

/-! ## Lemmas on the LOD resolver -/

theorem FMath.Max_two_le (x : Int) : 2 ≤ FMath.Max 2 x := by
  unfold FMath.Max; split <;> omega

theorem FMath.Max_eq_max (a x : Int) : FMath.Max a x = max a x := by
  unfold FMath.Max; split
  · rw [max_eq_left]; omega
  · rw [max_eq_right]; omega

theorem loop_test_iff (d : FFloat) (L : FChainLODLevel) :
    (FFloat.ge d L.MinDistance && FFloat.le d L.MaxDistance) = true ↔ L.Contains d := by
  simp [FFloat.ge, FChainLODLevel.Contains]

theorem loop_cases (d : FFloat) : ∀ (levels : List FChainLODLevel) (k : Nat),
    (GetLODIndexForDistance.loop d levels k = INDEX_NONE ∧
      levels.find? (fun L => decide (L.Contains d)) = none ∧
      ∀ (j : Nat) (L : FChainLODLevel), levels[j]? = some L → ¬ L.Contains d) ∨
    (∃ i L, GetLODIndexForDistance.loop d levels k = ((k + i : Nat) : Int) ∧
      levels[i]? = some L ∧ L.Contains d ∧
      levels.find? (fun L => decide (L.Contains d)) = some L ∧
      ∀ j, j < i → ∀ L1, levels[j]? = some L1 → ¬ L1.Contains d) := by
  intro levels
  induction levels with
  | nil =>
    intro k
    left
    simp [GetLODIndexForDistance.loop]
  | cons L rest ih =>
    intro k
    by_cases hc : L.Contains d
    · right
      refine ⟨0, L, ?_, by simp, hc, ?_, ?_⟩
      · simp [GetLODIndexForDistance.loop, (loop_test_iff d L).2 hc]
      · simp [List.find?, hc]
      · intro j hj; omega
    · have htest : (FFloat.ge d L.MinDistance && FFloat.le d L.MaxDistance) = false := by
        cases h : (FFloat.ge d L.MinDistance && FFloat.le d L.MaxDistance)
        · rfl
        · exact absurd ((loop_test_iff d L).1 h) hc
      rcases ih (k + 1) with ⟨h1, h2, h3⟩ | ⟨i, L0, h1, h2, h3, h4, h5⟩
      · left
        refine ⟨?_, ?_, ?_⟩
        · simp [GetLODIndexForDistance.loop, htest, h1]
        · simp [List.find?, hc, h2]
        · intro j L1 hj
          cases j with
          | zero => simp at hj; subst hj; exact hc
          | succ j => simp at hj; exact h3 j L1 hj
      · right
        refine ⟨i + 1, L0, ?_, by simpa using h2, h3, ?_, ?_⟩
        · simp [GetLODIndexForDistance.loop, htest, h1]; omega
        · simp [List.find?, hc, h4]
        · intro j hj L1 hL1
          cases j with
          | zero => simp at hL1; subst hL1; exact hc
          | succ j => simp at hL1; exact h5 j (by omega) L1 hL1

theorem INDEX_NONE_ne_natCast (n : Nat) : INDEX_NONE ≠ (n : Int) := by
  unfold INDEX_NONE; omega

theorem TArray.get?_natCast {α : Type} (xs : List α) (i : Nat) :
    TArray.get? xs (i : Int) = xs[i]? := by
  simp [TArray.get?]

theorem GetSegmentCountAtDistance_of_none (P : UChainProfile) (D : FFloat)
    (h : GetLODIndexForDistance.loop (FMath.MaxFloat 0 D) P.LODLevels 0 = INDEX_NONE) :
    P.GetSegmentCountAtDistance D = some P.GetBaseSegmentCount := by
  simp [UChainProfile.GetSegmentCountAtDistance, UChainProfile.GetLODIndexForDistance, h]

theorem GetSegmentCountAtDistance_of_index (P : UChainProfile) (D : FFloat) (i : Nat)
    (L : FChainLODLevel)
    (h : GetLODIndexForDistance.loop (FMath.MaxFloat 0 D) P.LODLevels 0 = ((0 + i : Nat) : Int))
    (hL : P.LODLevels[i]? = some L) :
    P.GetSegmentCountAtDistance D =
      if L.SegmentCountOverride ≤ 0 then some P.GetBaseSegmentCount
      else some (FMath.Max 2 L.SegmentCountOverride) := by
  have hne : ((i : Nat) : Int) ≠ INDEX_NONE := fun h => INDEX_NONE_ne_natCast _ h.symm
  unfold UChainProfile.GetSegmentCountAtDistance UChainProfile.GetLODIndexForDistance
  simp only [h, Nat.zero_add, if_neg hne, TArray.get?_natCast, hL]

/-! ## Theorems on the LOD resolver -/

/-- C1: for every profile and every distance, `GetSegmentCountAtDistance`
returns (no fault) an integer that is at least 2. -/
theorem GetSegmentCountAtDistance_ge_two (P : UChainProfile) (D : FFloat) :
    ∃ n : Int, P.GetSegmentCountAtDistance D = some n ∧ 2 ≤ n := by
  rcases loop_cases (FMath.MaxFloat 0 D) P.LODLevels 0 with ⟨h1, _, _⟩ | ⟨i, L, h1, h2, _, _, _⟩
  · exact ⟨_, GetSegmentCountAtDistance_of_none P D h1, FMath.Max_two_le _⟩
  · rw [GetSegmentCountAtDistance_of_index P D i L h1 h2]
    split
    · exact ⟨_, rfl, FMath.Max_two_le _⟩
    · exact ⟨_, rfl, FMath.Max_two_le _⟩

/-- C2: first match wins. `GetLODIndexForDistance(D)` is the index `i` exactly
when level `i` contains `max(0, D)` and no earlier level does; it is
`INDEX_NONE` exactly when no level contains `max(0, D)`. For the table
`[0,100]` (override 4), `[50,150]` (override 6) and distance 75 the index is 0
and the resolved count is 4. -/
theorem GetLODIndexForDistance_first_match (P : UChainProfile) (D : FFloat) :
    (∀ i : Nat, P.GetLODIndexForDistance D = (i : Int) ↔
      ((∃ L, P.LODLevels[i]? = some L ∧ L.Contains (FMath.MaxFloat 0 D)) ∧
        ∀ j, j < i → ∀ L1, P.LODLevels[j]? = some L1 → ¬ L1.Contains (FMath.MaxFloat 0 D))) ∧
    (P.GetLODIndexForDistance D = INDEX_NONE ↔
      ∀ (j : Nat) (L : FChainLODLevel), P.LODLevels[j]? = some L →
        ¬ L.Contains (FMath.MaxFloat 0 D)) ∧
    overlapProfile.GetLODIndexForDistance 75 = 0 ∧
    overlapProfile.GetSegmentCountAtDistance 75 = some 4 := by
  refine ⟨?_, ?_, by decide, by decide⟩
  · intro i
    unfold UChainProfile.GetLODIndexForDistance
    rcases loop_cases (FMath.MaxFloat 0 D) P.LODLevels 0 with
      ⟨h1, _, h3⟩ | ⟨i0, L, h1, h2, h3, _, h5⟩
    · constructor
      · intro h
        simp only [h1] at h
        exact absurd h (INDEX_NONE_ne_natCast i)
      · rintro ⟨⟨L, hL, hc⟩, _⟩
        exact absurd hc (h3 i L hL)
    · simp only [h1, Nat.zero_add]
      constructor
      · intro h
        have hi : i0 = i := by exact_mod_cast h
        subst hi
        exact ⟨⟨L, h2, h3⟩, h5⟩
      · rintro ⟨⟨L1, hL1, hc1⟩, hmin⟩
        have h_le : ¬ i0 < i := fun hlt => hmin i0 hlt L h2 h3
        have h_ge : ¬ i < i0 := fun hlt => h5 i hlt L1 hL1 hc1
        have : i0 = i := by omega
        exact_mod_cast this
  · unfold UChainProfile.GetLODIndexForDistance
    rcases loop_cases (FMath.MaxFloat 0 D) P.LODLevels 0 with
      ⟨h1, _, h3⟩ | ⟨i0, L, h1, h2, h3, _, _⟩
    · simp only [h1, true_iff]; exact h3
    · constructor
      · intro h
        simp only [h1] at h
        exact absurd h.symm (INDEX_NONE_ne_natCast _)
      · intro h
        exact absurd h3 (h i0 L h2)

/-- C3: `GetSegmentCountAtDistance` equals the reference definition of the
resolver (first containing level; default when none or when its override is
not positive; otherwise its override; each clamped to at least 2). A first
matching level with override 0 yields the default although a later
overlapping level has a positive override. -/
theorem GetSegmentCountAtDistance_eq_reference (P : UChainProfile) (D : FFloat) :
    P.GetSegmentCountAtDistance D = some (resolveSegmentCount P D) ∧
    shadowProfile.GetSegmentCountAtDistance 75 = some 5 := by
  refine ⟨?_, by decide⟩
  rcases loop_cases (FMath.MaxFloat 0 D) P.LODLevels 0 with
    ⟨h1, h2, _⟩ | ⟨i, L, h1, h2, _, h4, _⟩
  · rw [GetSegmentCountAtDistance_of_none P D h1]
    simp [resolveSegmentCount, h2, UChainProfile.GetBaseSegmentCount, FMath.Max_eq_max]
  · rw [GetSegmentCountAtDistance_of_index P D i L h1 h2]
    simp only [resolveSegmentCount, h4, UChainProfile.GetBaseSegmentCount, FMath.Max_eq_max]
    split <;> rfl

/-! ## Lemmas on the build loops -/

theorem createLink_eq (s : AChainInstanceActor) (i : Nat) :
    BuildChain.createLink s i =
      { s with NextObjectId := s.NextObjectId + 1,
               LinkComponents := s.LinkComponents ++ [builtLink s.Profile s.NextObjectId i] } := rfl

theorem linkLoop_eq : ∀ (k i : Nat) (s : AChainInstanceActor),
    BuildChain.linkLoop k i s =
      { s with NextObjectId := s.NextObjectId + k,
               LinkComponents := s.LinkComponents ++
                 (List.range k).map (fun j => builtLink s.Profile (s.NextObjectId + j) (i + j)) } := by
  intro k
  induction k with
  | zero => intro i s; simp [BuildChain.linkLoop]
  | succ k ih =>
    intro i s
    rw [BuildChain.linkLoop, ih, createLink_eq]
    simp only [List.range_succ_eq_map, List.map_cons, List.map_map, List.append_assoc,
      List.singleton_append, Nat.add_zero]
    have : (fun j => builtLink s.Profile (s.NextObjectId + 1 + j) (i + 1 + j)) =
        ((fun j => builtLink s.Profile (s.NextObjectId + j) (i + j)) ∘ Nat.succ) := by
      funext j; simp only [Function.comp, Nat.succ_eq_add_one]; congr 1 <;> omega
    rw [this]
    congr 1
    omega


theorem createConstraint_eq (s : AChainInstanceActor) (i : Nat)
    (h : i + 1 < s.LinkComponents.length) :
    BuildChain.createConstraint s i =
      some { s with NextObjectId := s.NextObjectId + 1,
                    ConstraintComponents := s.ConstraintComponents ++
                      [builtConstraint s.Profile s.NextObjectId i
                        (pointerAt s.LinkComponents i) (pointerAt s.LinkComponents (i + 1))] } := by
  have h1 : s.LinkComponents[i]? = some (s.LinkComponents[i]) :=
    List.getElem?_eq_getElem (by omega)
  have h2 : s.LinkComponents[i + 1]? = some (s.LinkComponents[i + 1]) :=
    List.getElem?_eq_getElem h
  simp only [BuildChain.createConstraint, h1, h2, pointerAt, Option.bind_some]
  rfl

theorem constraintLoop_eq : ∀ (k i : Nat) (s : AChainInstanceActor),
    i + k < s.LinkComponents.length →
    BuildChain.constraintLoop k i s =
      some { s with NextObjectId := s.NextObjectId + k,
                    ConstraintComponents := s.ConstraintComponents ++
                      (List.range k).map (fun j => builtConstraint s.Profile (s.NextObjectId + j)
                        (i + j) (pointerAt s.LinkComponents (i + j))
                        (pointerAt s.LinkComponents (i + j + 1))) } := by
  intro k
  induction k with
  | zero => intro i s _; simp [BuildChain.constraintLoop]
  | succ k ih =>
    intro i s h
    rw [BuildChain.constraintLoop, createConstraint_eq s i (by omega)]
    simp only
    rw [ih]
    · simp only [List.range_succ_eq_map, List.map_cons, List.map_map, List.append_assoc,
        List.singleton_append, Nat.add_zero]
      have : (fun j => builtConstraint s.Profile (s.NextObjectId + 1 + j) (i + 1 + j)
            (pointerAt s.LinkComponents (i + 1 + j)) (pointerAt s.LinkComponents (i + 1 + j + 1))) =
          ((fun j => builtConstraint s.Profile (s.NextObjectId + j) (i + j)
            (pointerAt s.LinkComponents (i + j)) (pointerAt s.LinkComponents (i + j + 1))) ∘
            Nat.succ) := by
        funext j
        simp only [Function.comp, Nat.succ_eq_add_one]
        have e1 : s.NextObjectId + 1 + j = s.NextObjectId + (j + 1) := by omega
        have e2 : i + 1 + j = i + (j + 1) := by omega
        rw [e1, e2]
      rw [this]
      congr 2
      omega
    · simp only; omega


theorem toNat_Max_two (d : Int) : 2 ≤ (FMath.Max 2 d).toNat ∧
    ((FMath.Max 2 d).toNat : Int) = FMath.Max 2 d ∧
    (FMath.Max 2 d - 1).toNat = (FMath.Max 2 d).toNat - 1 := by
  have := FMath.Max_two_le d
  omega

theorem BuildChain_eq (s : AChainInstanceActor) (P : UChainProfile) (hP : s.Profile = some P) :
    s.BuildChain =
      some { s with
        CurrentSegmentCount := FMath.Max 2 P.Visual.DefaultSegmentCount,
        NextObjectId := s.NextObjectId + (FMath.Max 2 P.Visual.DefaultSegmentCount).toNat +
          ((FMath.Max 2 P.Visual.DefaultSegmentCount).toNat - 1),
        LinkComponents := s.LinkComponents ++
          builtLinks (some P) s.NextObjectId (FMath.Max 2 P.Visual.DefaultSegmentCount).toNat,
        ConstraintComponents := s.ConstraintComponents ++
          builtConstraints (some P)
            (s.NextObjectId + (FMath.Max 2 P.Visual.DefaultSegmentCount).toNat)
            ((FMath.Max 2 P.Visual.DefaultSegmentCount).toNat - 1)
            (s.LinkComponents ++
              builtLinks (some P) s.NextObjectId
                (FMath.Max 2 P.Visual.DefaultSegmentCount).toNat) } := by
  obtain ⟨h2, _, h3⟩ := toNat_Max_two P.Visual.DefaultSegmentCount
  unfold AChainInstanceActor.BuildChain
  simp only [hP, linkLoop_eq, h3]
  rw [constraintLoop_eq]
  · simp only [builtLinks, builtConstraints, Nat.zero_add, hP]
  · simp only [List.length_append, List.length_map, List.length_range]
    omega


/-! ## Lemmas on anchor binding -/

theorem updateAt_eq {α : Type} (xs : List (Option α)) (i : Nat) (f : α → α) (x : α)
    (h : xs[i]? = some (some x)) :
    TArray.updateAt xs i f = some (xs.set i (some (f x))) := by
  simp [TArray.updateAt, h]

theorem updateAt_some {α : Type} (xs ys : List (Option α)) (i : Nat) (f : α → α)
    (h : TArray.updateAt xs i f = some ys) :
    ∃ x, xs[i]? = some (some x) ∧ ys = xs.set i (some (f x)) := by
  unfold TArray.updateAt at h
  split at h
  · rename_i x hx
    exact ⟨x, hx, by simpa using h.symm⟩
  · simp at h

theorem set_map_pointerTo (xs : List (Option UStaticMeshComponent)) (i : Nat)
    (x y : UStaticMeshComponent) (hx : xs[i]? = some (some x)) (hid : y.ObjectId = x.ObjectId) :
    (xs.set i (some y)).map pointerTo = xs.map pointerTo := by
  rw [List.map_set]
  apply List.ext_getElem?
  intro j
  by_cases hj : i = j
  · subst hj
    have hlt : i < xs.length := by
      rcases Nat.lt_or_ge i xs.length with h | h
      · exact h
      · rw [List.getElem?_eq_none h] at hx; simp at hx
    have hxi : xs[i] = some x := by
      have := List.getElem?_eq_getElem hlt
      rw [this] at hx
      exact Option.some.inj hx
    simp [List.getElem?_set, hlt, hxi, pointerTo, hid]
  · simp [List.getElem?_set, hj]

theorem getElem?_of_nonnull (xs : List (Option UStaticMeshComponent)) (i : Nat)
    (hnn : none ∉ xs.map pointerTo) (hi : i < xs.length) :
    ∃ x, xs[i]? = some (some x) := by
  rw [List.getElem?_eq_getElem hi]
  cases hx : xs[i] with
  | some x => exact ⟨x, rfl⟩
  | none =>
    exfalso
    apply hnn
    rw [List.mem_map]
    exact ⟨xs[i], List.getElem_mem hi, by rw [hx]; rfl⟩

theorem updateAt_link_some (xs ys : List (Option UStaticMeshComponent)) (i : Nat)
    (f : UStaticMeshComponent → UStaticMeshComponent)
    (h : TArray.updateAt xs i f = some ys)
    (hf : ∀ x, (f x).ObjectId = x.ObjectId) :
    ys.map pointerTo = xs.map pointerTo := by
  obtain ⟨x, hx, rfl⟩ := updateAt_some xs ys i f h
  exact set_map_pointerTo xs i x (f x) hx (hf x)

theorem updateAt_link_total (xs : List (Option UStaticMeshComponent)) (i : Nat)
    (f : UStaticMeshComponent → UStaticMeshComponent)
    (hnn : none ∉ xs.map pointerTo) (hi : i < xs.length) :
    ∃ ys, TArray.updateAt xs i f = some ys := by
  obtain ⟨x, hx⟩ := getElem?_of_nonnull xs i hnn hi
  exact ⟨_, updateAt_eq xs i f x hx⟩

theorem anchorLink0_some (s t : AChainInstanceActor) (h : BindAnchors.anchorLink0 s = some t) :
    ∃ Links, t = { s with LinkComponents := Links } ∧
      Links.map pointerTo = s.LinkComponents.map pointerTo := by
  unfold BindAnchors.anchorLink0 at h
  split at h
  · rw [Option.map_eq_some'] at h
    obtain ⟨Links, hu, rfl⟩ := h
    exact ⟨Links, rfl, updateAt_link_some _ _ _ _ hu (fun _ => rfl)⟩
  · split at h
    · rw [Option.map_eq_some'] at h
      obtain ⟨Links, hu, rfl⟩ := h
      exact ⟨Links, rfl, updateAt_link_some _ _ _ _ hu (fun _ => rfl)⟩
    · cases h
      exact ⟨s.LinkComponents, rfl, rfl⟩

theorem anchorLastLink_some (s t : AChainInstanceActor)
    (h : BindAnchors.anchorLastLink s = some t) :
    ∃ Links, t = { s with LinkComponents := Links } ∧
      Links.map pointerTo = s.LinkComponents.map pointerTo := by
  unfold BindAnchors.anchorLastLink at h
  split at h
  · cases h
  · split at h
    · split at h
      · rw [Option.map_eq_some'] at h
        obtain ⟨Links, hu, rfl⟩ := h
        exact ⟨Links, rfl, updateAt_link_some _ _ _ _ hu (fun _ => rfl)⟩
      · split at h
        · rw [Option.map_eq_some'] at h
          obtain ⟨Links, hu, rfl⟩ := h
          exact ⟨Links, rfl, updateAt_link_some _ _ _ _ hu (fun _ => rfl)⟩
        · cases h
          exact ⟨s.LinkComponents, rfl, rfl⟩
    · cases h
      exact ⟨s.LinkComponents, rfl, rfl⟩

theorem BindAnchors_some (s t : AChainInstanceActor) (h : s.BindAnchors = some t) :
    ∃ Links, t = { s with LinkComponents := Links } ∧
      Links.map pointerTo = s.LinkComponents.map pointerTo := by
  unfold AChainInstanceActor.BindAnchors at h
  split at h
  · cases h
    exact ⟨s.LinkComponents, rfl, rfl⟩
  · split at h
    · cases h
    · rename_i s1 h1
      obtain ⟨L1, rfl, hL1⟩ := anchorLink0_some s s1 h1
      obtain ⟨L2, rfl, hL2⟩ := anchorLastLink_some _ t h
      exact ⟨L2, rfl, hL2.trans hL1⟩

theorem anchorLink0_total (s : AChainInstanceActor)
    (hnn : none ∉ s.LinkComponents.map pointerTo) (hlen : 0 < s.LinkComponents.length) :
    ∃ t, BindAnchors.anchorLink0 s = some t := by
  unfold BindAnchors.anchorLink0
  split
  · obtain ⟨ys, hys⟩ := updateAt_link_total s.LinkComponents 0
      (fun Link => Link.SetWorldLocation s.StartAnchor.WorldLocation) hnn hlen
    exact ⟨_, by rw [hys]; rfl⟩
  · split
    · rename_i Component _
      obtain ⟨ys, hys⟩ := updateAt_link_total s.LinkComponents 0
        (fun Link => Link.AttachToComponent Component .SnapToTargetIncludingScale
          s.StartAnchor.SocketName) hnn hlen
      exact ⟨_, by rw [hys]; rfl⟩
    · exact ⟨s, rfl⟩

theorem anchorLastLink_total (s : AChainInstanceActor) (P : UChainProfile)
    (hP : s.Profile = some P)
    (hnn : none ∉ s.LinkComponents.map pointerTo) (hlen : 0 < s.LinkComponents.length) :
    ∃ t, BindAnchors.anchorLastLink s = some t := by
  unfold BindAnchors.anchorLastLink
  simp only [hP]
  split
  · split
    · rename_i Component _ _
      obtain ⟨ys, hys⟩ := updateAt_link_total s.LinkComponents (s.LinkComponents.length - 1)
        (fun Link => Link.AttachToComponent Component .KeepWorldTransform
          s.EndAnchor.SocketName) hnn (by omega)
      exact ⟨_, by rw [hys]; rfl⟩
    · split
      · obtain ⟨ys, hys⟩ := updateAt_link_total s.LinkComponents (s.LinkComponents.length - 1)
          (fun Link => Link.SetWorldLocation s.EndAnchor.WorldLocation) hnn (by omega)
        exact ⟨_, by rw [hys]; rfl⟩
      · exact ⟨s, rfl⟩
  · exact ⟨s, rfl⟩

theorem BindAnchors_total (s : AChainInstanceActor) (P : UChainProfile)
    (hP : s.Profile = some P) (hnn : none ∉ s.LinkComponents.map pointerTo) :
    ∃ t, s.BindAnchors = some t := by
  unfold AChainInstanceActor.BindAnchors
  split
  · exact ⟨s, rfl⟩
  · rename_i hlen
    obtain ⟨s1, h1⟩ := anchorLink0_total s hnn (by omega)
    obtain ⟨L1, rfl, hL1⟩ := anchorLink0_some s s1 h1
    simp only [h1]
    have hlen1 := congrArg List.length hL1
    simp only [List.length_map] at hlen1
    exact anchorLastLink_total { s with LinkComponents := L1 } P hP
      (by rw [hL1]; exact hnn) (by simp only; omega)

/-! ## Lemmas on `RebuildChain` -/

theorem ClearChain_BuildChain_eq (s : AChainInstanceActor) (P : UChainProfile)
    (hP : s.Profile = some P) : s.ClearChain.BuildChain = some (builtState s P) := by
  rw [BuildChain_eq s.ClearChain P (by simpa [AChainInstanceActor.ClearChain] using hP)]
  simp [builtState, AChainInstanceActor.ClearChain]

theorem builtLink_eq_some (P : UChainProfile) (id i : Nat) :
    ∃ L, builtLink (some P) id i = some L ∧ L.ObjectId = id := by
  unfold builtLink AChainInstanceActor.ApplyProfileToLink
  simp only
  split <;> exact ⟨_, rfl, rfl⟩

theorem pointerTo_builtLink (P : UChainProfile) (id i : Nat) :
    pointerTo (builtLink (some P) id i) = some id := by
  obtain ⟨L, hL, hid⟩ := builtLink_eq_some P id i
  simp [hL, pointerTo, hid]

theorem map_pointerTo_builtLinks (P : UChainProfile) (n0 N : Nat) :
    (builtLinks (some P) n0 N).map pointerTo = (List.range N).map (fun j => some (n0 + j)) := by
  simp [builtLinks, pointerTo_builtLink, Function.comp_def]

theorem pointerAt_eq (Links : List (Option UStaticMeshComponent)) (j : Nat) :
    pointerAt Links j = ((Links.map pointerTo)[j]?).join := by
  simp only [pointerAt, List.getElem?_map]
  cases Links[j]? <;> rfl

theorem pointerAt_builtLinks (P : UChainProfile) (n0 N j : Nat) (hj : j < N) :
    pointerAt (builtLinks (some P) n0 N) j = some (n0 + j) := by
  rw [pointerAt_eq, map_pointerTo_builtLinks]
  simp [hj]

theorem builtConstraint_eq_some (P : UChainProfile) (id i : Nat) (p1 p2 : Option Nat) :
    ∃ J, builtConstraint (some P) id i p1 p2 = some J ∧ J.ObjectId = id ∧
      J.ConstrainedComponent1 = p1 ∧ J.ConstrainedComponent2 = p2 ∧
      J.ConstrainedBone1 = .NAME_None ∧ J.ConstrainedBone2 = .NAME_None ∧ J.bBroken = false := by
  unfold builtConstraint AChainInstanceActor.ApplyProfileToConstraint
  simp only
  split <;> exact ⟨_, rfl, rfl, rfl, rfl, rfl, rfl, rfl⟩

theorem RebuildChain_absent (s : AChainInstanceActor) (hP : s.Profile = none) :
    s.RebuildChain = some s.ClearChain := by
  have h1 : s.ClearChain.BuildChain = some s.ClearChain := by
    unfold AChainInstanceActor.BuildChain
    have : s.ClearChain.Profile = none := by simpa [AChainInstanceActor.ClearChain] using hP
    simp [this]
  unfold AChainInstanceActor.RebuildChain
  simp only [h1]
  simp [AChainInstanceActor.BindAnchors, AChainInstanceActor.ClearChain]

theorem RebuildChain_present (s : AChainInstanceActor) (P : UChainProfile)
    (hP : s.Profile = some P) :
    ∃ Links, s.RebuildChain = some { builtState s P with LinkComponents := Links } ∧
      Links.map pointerTo =
        (List.range (FMath.Max 2 P.Visual.DefaultSegmentCount).toNat).map
          (fun j => some (s.NextObjectId + j)) := by
  have hP1 : (builtState s P).Profile = some P := by
    simpa [builtState, AChainInstanceActor.ClearChain] using hP
  have hmap := map_pointerTo_builtLinks P s.NextObjectId
    (FMath.Max 2 P.Visual.DefaultSegmentCount).toNat
  have hnn : none ∉ (builtState s P).LinkComponents.map pointerTo := by
    simp only [builtState, hmap]
    simp
  obtain ⟨t, ht⟩ := BindAnchors_total (builtState s P) P hP1 hnn
  obtain ⟨Links, rfl, hLinks⟩ := BindAnchors_some _ t ht
  refine ⟨Links, ?_, ?_⟩
  · unfold AChainInstanceActor.RebuildChain
    simp only [ClearChain_BuildChain_eq s P hP, ht]
  · rw [hLinks]
    simpa [builtState] using hmap

theorem getElem?_of_map_pointerTo (Links : List (Option UStaticMeshComponent)) (i id : Nat)
    (h : (Links.map pointerTo)[i]? = some (some id)) :
    ∃ L, Links[i]? = some (some L) ∧ L.ObjectId = id := by
  rw [List.getElem?_map] at h
  cases hx : Links[i]? with
  | none => rw [hx] at h; simp at h
  | some x =>
    cases x with
    | none => rw [hx] at h; simp [pointerTo] at h
    | some L =>
      rw [hx] at h
      simp only [Option.map_some', pointerTo, Option.some.injEq] at h
      exact ⟨L, rfl, h⟩

theorem map_pointerTo_getElem? (Links : List (Option UStaticMeshComponent)) (i : Nat)
    (L : UStaticMeshComponent) (h : Links[i]? = some (some L)) :
    (Links.map pointerTo)[i]? = some (some L.ObjectId) := by
  simp [List.getElem?_map, h, pointerTo]

theorem range_map_getElem? (N n0 i : Nat) (hi : i < N) :
    ((List.range N).map (fun j => some (n0 + j)))[i]? = some (some (n0 + i)) := by
  simp [hi]

theorem range_map_getElem?_some (N n0 i id : Nat)
    (h : ((List.range N).map (fun j => some (n0 + j)))[i]? = some (some id)) :
    id = n0 + i ∧ i < N := by
  rcases Nat.lt_or_ge i N with hi | hi
  · rw [range_map_getElem? N n0 i hi] at h
    simp only [Option.some.injEq] at h
    exact ⟨h.symm, hi⟩
  · rw [List.getElem?_eq_none (by simpa using hi)] at h
    cases h

/-! ## Lemmas on `BreakLink` -/

theorem IsValidIndex_iff {α : Type} (xs : List α) (i : Int) :
    TArray.IsValidIndex xs i = true ↔ 0 ≤ i ∧ i < (xs.length : Int) := by
  simp [TArray.IsValidIndex]

theorem BreakLink_of_invalid (s : AChainInstanceActor) (i : Int)
    (h : ¬ (0 ≤ i ∧ i < (s.ConstraintComponents.length : Int))) :
    s.BreakLink i = some s := by
  have hv : TArray.IsValidIndex s.ConstraintComponents i = false := by
    cases hb : TArray.IsValidIndex s.ConstraintComponents i
    · rfl
    · exact absurd ((IsValidIndex_iff _ _).1 hb) h
  simp [AChainInstanceActor.BreakLink, hv]

theorem BreakLink_of_null (s : AChainInstanceActor) (i : Int) (hi : 0 ≤ i)
    (h : s.ConstraintComponents[i.toNat]? = some none) :
    s.BreakLink i = some s := by
  have hlt : i.toNat < s.ConstraintComponents.length := by
    rcases Nat.lt_or_ge i.toNat s.ConstraintComponents.length with h1 | h1
    · exact h1
    · rw [List.getElem?_eq_none h1] at h; cases h
  have hv : TArray.IsValidIndex s.ConstraintComponents i = true :=
    (IsValidIndex_iff _ _).2 ⟨hi, by omega⟩
  simp [AChainInstanceActor.BreakLink, hv, TArray.get?, hi, h]

theorem BreakLink_of_joint (s : AChainInstanceActor) (i : Int) (J : UPhysicsConstraintComponent)
    (hi : 0 ≤ i) (h : s.ConstraintComponents[i.toNat]? = some (some J)) :
    s.BreakLink i = some
      { s with
        ConstraintComponents :=
          s.ConstraintComponents.set i.toNat (some { J with bBroken := true }) } := by
  have hlt : i.toNat < s.ConstraintComponents.length := by
    rcases Nat.lt_or_ge i.toNat s.ConstraintComponents.length with h1 | h1
    · exact h1
    · rw [List.getElem?_eq_none h1] at h; cases h
  have hv : TArray.IsValidIndex s.ConstraintComponents i = true :=
    (IsValidIndex_iff _ _).2 ⟨hi, by omega⟩
  simp [AChainInstanceActor.BreakLink, hv, TArray.get?, hi, h,
    UPhysicsConstraintComponent.BreakConstraint]

theorem BreakLink_cases (s : AChainInstanceActor) (i : Int) :
    s.BreakLink i = some s ∨
    ∃ J, 0 ≤ i ∧ s.ConstraintComponents[i.toNat]? = some (some J) ∧
      s.BreakLink i = some
        { s with
          ConstraintComponents :=
            s.ConstraintComponents.set i.toNat (some { J with bBroken := true }) } := by
  by_cases hv : 0 ≤ i ∧ i < (s.ConstraintComponents.length : Int)
  · have hlt : i.toNat < s.ConstraintComponents.length := by omega
    cases hx : s.ConstraintComponents[i.toNat] with
    | none =>
      left
      exact BreakLink_of_null s i hv.1 (by rw [List.getElem?_eq_getElem hlt, hx])
    | some J =>
      right
      have hJ : s.ConstraintComponents[i.toNat]? = some (some J) := by
        rw [List.getElem?_eq_getElem hlt, hx]
      exact ⟨J, hv.1, hJ, BreakLink_of_joint s i J hv.1 hJ⟩
  · left
    exact BreakLink_of_invalid s i hv

/-! ## Lemmas on the invariant -/

theorem RebuildChain_invariant (s : AChainInstanceActor) :
    ∃ t, s.RebuildChain = some t ∧ ChainInvariant t := by
  cases hP : s.Profile with
  | none =>
    refine ⟨_, RebuildChain_absent s hP, Or.inl ?_⟩
    simp [AChainInstanceActor.ClearChain]
  | some P =>
    obtain ⟨Links, hR, hmap⟩ := RebuildChain_present s P hP
    obtain ⟨hN2, hNcast, _⟩ := toNat_Max_two P.Visual.DefaultSegmentCount
    have hlen : Links.length = (FMath.Max 2 P.Visual.DefaultSegmentCount).toNat := by
      have := congrArg List.length hmap
      simpa using this
    refine ⟨_, hR, Or.inr ⟨?_, ?_⟩⟩
    · simp only [builtState]
      rw [hlen, hNcast]
    · simp only [builtState, builtConstraints, List.length_map, List.length_range]
      omega

theorem BreakLink_invariant (s : AChainInstanceActor) (i : Int) (h : ChainInvariant s) :
    ∃ t, s.BreakLink i = some t ∧ ChainInvariant t := by
  rcases BreakLink_cases s i with h1 | ⟨J, _, _, h1⟩
  · exact ⟨s, h1, h⟩
  · refine ⟨_, h1, ?_⟩
    rcases h with ⟨hL, hJ⟩ | ⟨hL, hJ⟩
    · left
      simp only [hJ, List.set_nil, and_true]
      exact hL
    · right
      simp only [List.length_set]
      exact ⟨hL, hJ⟩

theorem apply_invariant (op : ChainOp) (s : AChainInstanceActor) (h : ChainInvariant s) :
    ∃ t, op.apply s = some t ∧ ChainInvariant t := by
  cases op with
  | InitializeFromProfile =>
    simp only [ChainOp.apply, AChainInstanceActor.InitializeFromProfile]
    split
    · exact ⟨s, rfl, h⟩
    · exact RebuildChain_invariant s
  | RebuildChain => exact RebuildChain_invariant s
  | SetStartAnchor NewAnchor =>
    simp only [ChainOp.apply, AChainInstanceActor.SetStartAnchor]
    split
    · exact RebuildChain_invariant _
    · exact ⟨_, rfl, h⟩
  | SetEndAnchor NewAnchor =>
    simp only [ChainOp.apply, AChainInstanceActor.SetEndAnchor]
    split
    · exact RebuildChain_invariant _
    · exact ⟨_, rfl, h⟩
  | SetTargetLength NewLength =>
    refine ⟨_, rfl, ?_⟩
    unfold AChainInstanceActor.SetTargetLength
    split
    · exact h
    · split
      · exact h
      · exact h
  | BreakLink LinkIndex => exact BreakLink_invariant s LinkIndex h
  | SetProfile NewProfile => exact ⟨_, rfl, h⟩

theorem runOps_invariant : ∀ (ops : List ChainOp) (s : AChainInstanceActor),
    ChainInvariant s → ∃ t, runOps ops s = some t ∧ ChainInvariant t := by
  intro ops
  induction ops with
  | nil => intro s h; exact ⟨s, rfl, h⟩
  | cons op ops ih =>
    intro s h
    obtain ⟨t, ht, hinv⟩ := apply_invariant op s h
    obtain ⟨u, hu, huinv⟩ := ih t hinv
    exact ⟨u, by simp only [runOps, ht, hu], huinv⟩

/-! ## Lemmas on the loose end -/

theorem anchorLastLink_loose (s : AChainInstanceActor) (P : UChainProfile)
    (hP : s.Profile = some P) (hloose : P.bSupportsLooseEnd = true) :
    BindAnchors.anchorLastLink s = some s := by
  simp [BindAnchors.anchorLastLink, hP, hloose]

theorem getLast?_set_zero {α : Type} (xs : List α) (y : α) (h : 2 ≤ xs.length) :
    (xs.set 0 y).getLast? = xs.getLast? := by
  rw [List.getLast?_eq_getElem?, List.getLast?_eq_getElem?, List.length_set,
    List.getElem?_set]
  have : ¬ (0 = xs.length - 1) := by omega
  simp [this]

theorem anchorLink0_getLast? (s t : AChainInstanceActor) (h : BindAnchors.anchorLink0 s = some t)
    (hlen : 2 ≤ s.LinkComponents.length) :
    t.Profile = s.Profile ∧ t.LinkComponents.getLast? = s.LinkComponents.getLast? ∧
      t.LinkComponents.length = s.LinkComponents.length := by
  unfold BindAnchors.anchorLink0 at h
  split at h
  · rw [Option.map_eq_some'] at h
    obtain ⟨Links, hu, rfl⟩ := h
    obtain ⟨x, _, rfl⟩ := updateAt_some _ _ _ _ hu
    exact ⟨rfl, getLast?_set_zero _ _ hlen, by simp⟩
  · split at h
    · rw [Option.map_eq_some'] at h
      obtain ⟨Links, hu, rfl⟩ := h
      obtain ⟨x, _, rfl⟩ := updateAt_some _ _ _ _ hu
      exact ⟨rfl, getLast?_set_zero _ _ hlen, by simp⟩
    · cases h
      exact ⟨rfl, rfl, rfl⟩

/-! ## Lemmas on two builds in a row -/

theorem builtLink_shift (P : UChainProfile) (id i d : Nat) :
    builtLink (some P) (id + d) i = (builtLink (some P) id i).map (shiftLink d) := by
  unfold builtLink AChainInstanceActor.ApplyProfileToLink
  simp only
  split <;> rfl

theorem builtConstraint_shift (P : UChainProfile) (id i d : Nat) (p1 p2 : Option Nat) :
    builtConstraint (some P) (id + d) i (p1.map (fun x => x + d)) (p2.map (fun x => x + d)) =
      (builtConstraint (some P) id i p1 p2).map (shiftConstraint d) := by
  unfold builtConstraint AChainInstanceActor.ApplyProfileToConstraint
  simp only
  split <;> rfl

theorem builtLinks_shift (P : UChainProfile) (n0 N d : Nat) :
    builtLinks (some P) (n0 + d) N = (builtLinks (some P) n0 N).map (Option.map (shiftLink d)) := by
  simp only [builtLinks, List.map_map]
  apply List.map_congr_left
  intro j _
  have : n0 + d + j = n0 + j + d := by omega
  simp only [Function.comp, this, builtLink_shift]

theorem pointerTo_shift (d : Nat) (Link : Option UStaticMeshComponent) :
    pointerTo (Link.map (shiftLink d)) = (pointerTo Link).map (fun x => x + d) := by
  cases Link <;> rfl

theorem pointerAt_shift (Links : List (Option UStaticMeshComponent)) (d j : Nat) :
    pointerAt (Links.map (Option.map (shiftLink d))) j =
      (pointerAt Links j).map (fun x => x + d) := by
  simp only [pointerAt, List.getElem?_map]
  cases Links[j]? with
  | none => rfl
  | some Link => exact pointerTo_shift d Link

theorem builtConstraints_shift (P : UChainProfile) (n1 M d : Nat)
    (Links : List (Option UStaticMeshComponent)) :
    builtConstraints (some P) (n1 + d) M (Links.map (Option.map (shiftLink d))) =
      (builtConstraints (some P) n1 M Links).map (Option.map (shiftConstraint d)) := by
  simp only [builtConstraints, List.map_map]
  apply List.map_congr_left
  intro j _
  have : n1 + d + j = n1 + j + d := by omega
  simp only [Function.comp, this, pointerAt_shift, builtConstraint_shift]

theorem updateAt_map (xs : List (Option UStaticMeshComponent)) (i : Nat)
    (f g : UStaticMeshComponent → UStaticMeshComponent) (hfg : ∀ x, f (g x) = g (f x)) :
    TArray.updateAt (xs.map (Option.map g)) i f =
      (TArray.updateAt xs i f).map (List.map (Option.map g)) := by
  unfold TArray.updateAt
  rw [List.getElem?_map]
  cases hx : xs[i]? with
  | none => rfl
  | some x =>
    cases x with
    | none => rfl
    | some L => simp [List.map_set, hfg]

theorem anchorLink0_relocate (d n : Nat) (D : List Nat) (a : AChainInstanceActor) :
    BindAnchors.anchorLink0 (relocate d n D a) =
      (BindAnchors.anchorLink0 a).map (relocate d n D) := by
  unfold BindAnchors.anchorLink0
  simp only [relocate]
  split
  · rw [updateAt_map a.LinkComponents 0
      (fun Link => Link.SetWorldLocation a.StartAnchor.WorldLocation) (shiftLink d)
      (fun _ => rfl)]
    cases TArray.updateAt a.LinkComponents 0 _ <;> rfl
  · split
    · rename_i Component _
      rw [updateAt_map a.LinkComponents 0
        (fun Link => Link.AttachToComponent Component .SnapToTargetIncludingScale
          a.StartAnchor.SocketName) (shiftLink d) (fun _ => rfl)]
      cases TArray.updateAt a.LinkComponents 0 _ <;> rfl
    · rfl

theorem anchorLastLink_relocate (d n : Nat) (D : List Nat) (a : AChainInstanceActor) :
    BindAnchors.anchorLastLink (relocate d n D a) =
      (BindAnchors.anchorLastLink a).map (relocate d n D) := by
  unfold BindAnchors.anchorLastLink
  simp only [relocate, List.length_map, TArray.IsValidIndex]
  split
  · rfl
  · split
    · split
      · rename_i Component _ _
        rw [updateAt_map a.LinkComponents (a.LinkComponents.length - 1)
          (fun Link => Link.AttachToComponent Component .KeepWorldTransform
            a.EndAnchor.SocketName) (shiftLink d) (fun _ => rfl)]
        cases TArray.updateAt a.LinkComponents _ _ <;> rfl
      · split
        · rw [updateAt_map a.LinkComponents (a.LinkComponents.length - 1)
            (fun Link => Link.SetWorldLocation a.EndAnchor.WorldLocation) (shiftLink d)
            (fun _ => rfl)]
          cases TArray.updateAt a.LinkComponents _ _ <;> rfl
        · rfl
    · rfl

theorem BindAnchors_relocate (d n : Nat) (D : List Nat) (a : AChainInstanceActor) :
    (relocate d n D a).BindAnchors = (a.BindAnchors).map (relocate d n D) := by
  unfold AChainInstanceActor.BindAnchors
  rw [anchorLink0_relocate]
  have hlen : (relocate d n D a).LinkComponents.length = a.LinkComponents.length := by
    simp [relocate]
  rw [hlen]
  split
  · rfl
  · cases h : BindAnchors.anchorLink0 a with
    | none => rfl
    | some a1 => simpa using anchorLastLink_relocate d n D a1

theorem indexOfObject_shift (d id : Nat) : ∀ (Links : List (Option UStaticMeshComponent)),
    indexOfObject (id + d) (Links.map (Option.map (shiftLink d))) = indexOfObject id Links := by
  intro Links
  induction Links with
  | nil => rfl
  | cons Link rest ih =>
    simp only [List.map_cons, indexOfObject, ih, pointerTo_shift]
    cases pointerTo Link with
    | none => simp
    | some x => simp

theorem observeConstraint_shift (d : Nat) (Links : List (Option UStaticMeshComponent))
    (C : UPhysicsConstraintComponent) :
    observeConstraint (Links.map (Option.map (shiftLink d))) (shiftConstraint d C) =
      observeConstraint Links C := by
  unfold observeConstraint shiftConstraint
  simp only
  congr 1
  · cases C.ConstrainedComponent1 with
    | none => rfl
    | some id => simp [indexOfObject_shift]
  · cases C.ConstrainedComponent2 with
    | none => rfl
    | some id => simp [indexOfObject_shift]

theorem observe_relocate (d n : Nat) (D : List Nat) (a : AChainInstanceActor) :
    (relocate d n D a).observe = a.observe := by
  unfold AChainInstanceActor.observe relocate
  simp only [List.map_map]
  congr 1
  · apply List.map_congr_left
    intro Link _
    cases Link <;> rfl
  · apply List.map_congr_left
    intro C _
    cases C with
    | none => rfl
    | some C => simp [observeConstraint_shift]

theorem builtState_relocate (s : AChainInstanceActor) (P : UChainProfile)
    (Links : List (Option UStaticMeshComponent)) :
    builtState { builtState s P with LinkComponents := Links } P =
      relocate ((FMath.Max 2 P.Visual.DefaultSegmentCount).toNat +
          ((FMath.Max 2 P.Visual.DefaultSegmentCount).toNat - 1))
        (builtState { builtState s P with LinkComponents := Links } P).NextObjectId
        (builtState { builtState s P with LinkComponents := Links } P).DestroyedObjects
        (builtState s P) := by
  have e1 : s.NextObjectId + (FMath.Max 2 P.Visual.DefaultSegmentCount).toNat +
        ((FMath.Max 2 P.Visual.DefaultSegmentCount).toNat - 1) =
      s.NextObjectId + ((FMath.Max 2 P.Visual.DefaultSegmentCount).toNat +
        ((FMath.Max 2 P.Visual.DefaultSegmentCount).toNat - 1)) := by omega
  have e2 : s.NextObjectId + (FMath.Max 2 P.Visual.DefaultSegmentCount).toNat +
        ((FMath.Max 2 P.Visual.DefaultSegmentCount).toNat - 1) +
        (FMath.Max 2 P.Visual.DefaultSegmentCount).toNat =
      s.NextObjectId + (FMath.Max 2 P.Visual.DefaultSegmentCount).toNat +
        ((FMath.Max 2 P.Visual.DefaultSegmentCount).toNat +
        ((FMath.Max 2 P.Visual.DefaultSegmentCount).toNat - 1)) := by omega
  simp only [builtState, relocate, AChainInstanceActor.ClearChain]
  rw [e2, e1, builtLinks_shift, builtConstraints_shift]

theorem RebuildChain_twice_present (s s1 : AChainInstanceActor) (P : UChainProfile)
    (hP : s.Profile = some P) (h1 : s.RebuildChain = some s1) :
    ∃ d n D, s1.RebuildChain = some (relocate d n D s1) := by
  obtain ⟨Links, hR, _⟩ := RebuildChain_present s P hP
  rw [h1] at hR
  cases hR
  have hB : (builtState s P).BindAnchors = some { builtState s P with LinkComponents := Links } := by
    have := h1
    unfold AChainInstanceActor.RebuildChain at this
    simpa only [ClearChain_BuildChain_eq s P hP] using this
  have hP1 : ({ builtState s P with LinkComponents := Links } : AChainInstanceActor).Profile =
      some P := by
    simpa [builtState, AChainInstanceActor.ClearChain] using hP
  refine ⟨(FMath.Max 2 P.Visual.DefaultSegmentCount).toNat +
      ((FMath.Max 2 P.Visual.DefaultSegmentCount).toNat - 1),
    (builtState { builtState s P with LinkComponents := Links } P).NextObjectId,
    (builtState { builtState s P with LinkComponents := Links } P).DestroyedObjects, ?_⟩
  unfold AChainInstanceActor.RebuildChain
  simp only [ClearChain_BuildChain_eq _ P hP1]
  rw [builtState_relocate, BindAnchors_relocate, hB]
  rfl

theorem RebuildChain_fresh (s t : AChainInstanceActor) (h : s.RebuildChain = some t) :
    t.DestroyedObjects = s.ClearChain.DestroyedObjects ∧
    (∀ L, some L ∈ t.LinkComponents → s.NextObjectId ≤ L.ObjectId ∧ L.ObjectId < t.NextObjectId) ∧
    (∀ J, some J ∈ t.ConstraintComponents →
      s.NextObjectId ≤ J.ObjectId ∧ J.ObjectId < t.NextObjectId) := by
  cases hP : s.Profile with
  | none =>
    rw [RebuildChain_absent s hP] at h
    cases h
    refine ⟨rfl, ?_, ?_⟩
    · intro L hL; simp [AChainInstanceActor.ClearChain] at hL
    · intro J hJ; simp [AChainInstanceActor.ClearChain] at hJ
  | some P =>
    obtain ⟨Links, hR, hmap⟩ := RebuildChain_present s P hP
    obtain ⟨hN2, _, _⟩ := toNat_Max_two P.Visual.DefaultSegmentCount
    rw [h] at hR
    cases hR
    refine ⟨rfl, ?_, ?_⟩
    · intro L hL
      have hmem : pointerTo (some L) ∈ Links.map pointerTo := List.mem_map_of_mem _ hL
      rw [hmap, List.mem_map] at hmem
      obtain ⟨j, hj, hid⟩ := hmem
      rw [List.mem_range] at hj
      simp only [pointerTo, Option.map_some', Option.some.injEq] at hid
      simp only [builtState]
      omega
    · intro J hJ
      simp only [builtState, builtConstraints, List.mem_map, List.mem_range] at hJ
      obtain ⟨j, hj, hJ⟩ := hJ
      obtain ⟨J1, hJ1, hid, _⟩ := builtConstraint_eq_some P
        (s.NextObjectId + (FMath.Max 2 P.Visual.DefaultSegmentCount).toNat + j) j
        (pointerAt (builtLinks (some P) s.NextObjectId
          (FMath.Max 2 P.Visual.DefaultSegmentCount).toNat) j)
        (pointerAt (builtLinks (some P) s.NextObjectId
          (FMath.Max 2 P.Visual.DefaultSegmentCount).toNat) (j + 1))
      rw [hJ1] at hJ
      cases hJ
      simp only [builtState]
      omega

theorem RebuildChain_twice_observe (s s1 : AChainInstanceActor) (h1 : s.RebuildChain = some s1) :
    ∃ s2, s1.RebuildChain = some s2 ∧ s2.observe = s1.observe := by
  cases hP : s.Profile with
  | none =>
    rw [RebuildChain_absent s hP] at h1
    cases h1
    have hP1 : s.ClearChain.Profile = none := by
      simpa [AChainInstanceActor.ClearChain] using hP
    refine ⟨_, RebuildChain_absent _ hP1, ?_⟩
    simp [AChainInstanceActor.observe, AChainInstanceActor.ClearChain]
  | some P =>
    obtain ⟨d, n, D, h2⟩ := RebuildChain_twice_present s s1 P hP h1
    exact ⟨_, h2, observe_relocate d n D s1⟩

theorem ClearChain_destroys (s : AChainInstanceActor) :
    (∀ L, some L ∈ s.LinkComponents → L.ObjectId ∈ s.ClearChain.DestroyedObjects) ∧
    (∀ J, some J ∈ s.ConstraintComponents → J.ObjectId ∈ s.ClearChain.DestroyedObjects) := by
  constructor
  · intro L hL
    simp only [AChainInstanceActor.ClearChain, List.mem_append, List.mem_filterMap]
    exact Or.inl (Or.inr ⟨some L, hL, rfl⟩)
  · intro J hJ
    simp only [AChainInstanceActor.ClearChain, List.mem_append, List.mem_filterMap]
    exact Or.inr ⟨some J, hJ, rfl⟩

/-! ## Lemmas on world-space anchors -/

theorem anchorLink0_world (a : AChainInstanceActor) (L0 : UStaticMeshComponent)
    (hS : a.StartAnchor.bUseWorldLocation = true)
    (h0 : a.LinkComponents[0]? = some (some L0)) :
    BindAnchors.anchorLink0 a = some
      { a with
        LinkComponents :=
          a.LinkComponents.set 0 (some (L0.SetWorldLocation a.StartAnchor.WorldLocation)) } := by
  unfold BindAnchors.anchorLink0
  simp only [hS, if_true]
  rw [updateAt_eq _ _ _ L0 h0]
  rfl

theorem anchorLastLink_world (a : AChainInstanceActor) (P : UChainProfile)
    (Ln : UStaticMeshComponent)
    (hP : a.Profile = some P) (hloose : P.bSupportsLooseEnd = false)
    (hE : a.EndAnchor.bUseWorldLocation = true)
    (hn : a.LinkComponents[a.LinkComponents.length - 1]? = some (some Ln)) :
    BindAnchors.anchorLastLink a = some
      { a with
        LinkComponents :=
          a.LinkComponents.set (a.LinkComponents.length - 1)
            (some (Ln.SetWorldLocation a.EndAnchor.WorldLocation)) } := by
  have hlen : 0 < a.LinkComponents.length := by
    rcases Nat.lt_or_ge (a.LinkComponents.length - 1) a.LinkComponents.length with h | h
    · omega
    · rw [List.getElem?_eq_none h] at hn; cases hn
  have hv : TArray.IsValidIndex a.LinkComponents ((a.LinkComponents.length : Int) - 1) = true :=
    (IsValidIndex_iff _ _).2 ⟨by omega, by omega⟩
  unfold BindAnchors.anchorLastLink
  simp only [hP, hloose, hv, hE, BEq.refl, Bool.and_self, if_true, Bool.not_true]
  rw [updateAt_eq _ _ _ Ln hn]
  rfl

theorem BindAnchors_world (a : AChainInstanceActor) (P : UChainProfile)
    (L0 Ln : UStaticMeshComponent)
    (hP : a.Profile = some P) (hloose : P.bSupportsLooseEnd = false)
    (hS : a.StartAnchor.bUseWorldLocation = true) (hE : a.EndAnchor.bUseWorldLocation = true)
    (hlen : 2 ≤ a.LinkComponents.length)
    (h0 : a.LinkComponents[0]? = some (some L0))
    (hn : a.LinkComponents[a.LinkComponents.length - 1]? = some (some Ln)) :
    a.BindAnchors = some
      { a with
        LinkComponents :=
          (a.LinkComponents.set 0 (some (L0.SetWorldLocation a.StartAnchor.WorldLocation))).set
            (a.LinkComponents.length - 1)
            (some (Ln.SetWorldLocation a.EndAnchor.WorldLocation)) } := by
  have hne : ¬ a.LinkComponents.length = 0 := by omega
  unfold AChainInstanceActor.BindAnchors
  simp only [hne, if_false, anchorLink0_world a L0 hS h0]
  have hn1 : (a.LinkComponents.set 0
      (some (L0.SetWorldLocation a.StartAnchor.WorldLocation)))[(a.LinkComponents.set 0
        (some (L0.SetWorldLocation a.StartAnchor.WorldLocation))).length - 1]? = some (some Ln) := by
    rw [List.length_set, List.getElem?_set]
    have : ¬ (0 = a.LinkComponents.length - 1) := by omega
    simp only [this, if_false]
    exact hn
  have h := anchorLastLink_world
    { a with
      LinkComponents :=
        a.LinkComponents.set 0 (some (L0.SetWorldLocation a.StartAnchor.WorldLocation)) }
    P Ln hP hloose hE hn1
  simp only [List.length_set] at h
  exact h

theorem builtLinks_getElem? (P : UChainProfile) (n0 N j : Nat) (hj : j < N) :
    ∃ L, (builtLinks (some P) n0 N)[j]? = some (some L) ∧ L.ObjectId = n0 + j ∧
      builtLink (some P) (n0 + j) j = some L := by
  obtain ⟨L, hL, hid⟩ := builtLink_eq_some P (n0 + j) j
  refine ⟨L, ?_, hid, hL⟩
  simp only [builtLinks]
  rw [List.getElem?_map, List.getElem?_range hj]
  simpa using hL

theorem builtLinks_length (P : Option UChainProfile) (n0 N : Nat) :
    (builtLinks P n0 N).length = N := by
  simp [builtLinks]

/-! ## Lemmas on the frame of `RebuildChain` -/

theorem RebuildChain_frame (s t : AChainInstanceActor) (h : s.RebuildChain = some t) :
    t.Profile = s.Profile ∧ t.StartAnchor = s.StartAnchor ∧ t.EndAnchor = s.EndAnchor ∧
      t.bAutoRebuild = s.bAutoRebuild ∧ t.bHasAuthority = s.bHasAuthority ∧ t.Log = s.Log := by
  cases hP : s.Profile with
  | none =>
    rw [RebuildChain_absent s hP] at h
    cases h
    simp [AChainInstanceActor.ClearChain, hP]
  | some P =>
    obtain ⟨Links, hR, _⟩ := RebuildChain_present s P hP
    rw [h] at hR
    cases hR
    simp [builtState, AChainInstanceActor.ClearChain, hP]

theorem RebuildChain_complete (s : AChainInstanceActor) (P : UChainProfile)
    (hP : s.Profile = some P) :
    ∃ t, s.RebuildChain = some t ∧ 2 ≤ t.LinkComponents.length ∧
      (t.ConstraintComponents.length : Int) = (t.LinkComponents.length : Int) - 1 := by
  obtain ⟨Links, hR, hmap⟩ := RebuildChain_present s P hP
  obtain ⟨hN2, _, _⟩ := toNat_Max_two P.Visual.DefaultSegmentCount
  have hlen : Links.length = (FMath.Max 2 P.Visual.DefaultSegmentCount).toNat := by
    have := congrArg List.length hmap
    simpa using this
  refine ⟨_, hR, by simp only [hlen]; exact hN2, ?_⟩
  simp only [builtState, builtConstraints, List.length_map, List.length_range, hlen]
  omega

/-! ## Lemmas on the configuration of built components -/

theorem builtConstraint_config (P : UChainProfile) (id i : Nat) (p1 p2 : Option Nat) :
    ∃ J, builtConstraint (some P) id i p1 p2 = some J ∧ JointConfiguredBy P.Constraint J := by
  unfold builtConstraint AChainInstanceActor.ApplyProfileToConstraint JointConfiguredBy
  simp only
  split
  · rename_i h
    refine ⟨_, rfl, rfl, rfl, rfl, fun _ => ⟨rfl, rfl, rfl⟩, ?_, rfl, rfl, rfl, rfl⟩
    intro h2
    rw [h2] at h
    cases h
  · rename_i h
    refine ⟨_, rfl, rfl, rfl, rfl, ?_, fun _ => ⟨rfl, rfl, rfl⟩, rfl, rfl, rfl, rfl⟩
    intro h2
    exact absurd h2 h

theorem builtLink_config (P : UChainProfile) (id i : Nat) :
    ∃ L, builtLink (some P) id i = some L ∧ LinkConfiguredBy P L := by
  unfold builtLink AChainInstanceActor.ApplyProfileToLink LinkConfiguredBy
  simp only
  split
  · rename_i h
    refine ⟨_, rfl, rfl, rfl, rfl, rfl, rfl, rfl, rfl, rfl, fun _ => ⟨rfl, rfl⟩, ?_⟩
    intro h2
    exact absurd h2 h
  · rename_i h
    refine ⟨_, rfl, rfl, rfl, rfl, rfl, rfl, rfl, rfl, rfl, ?_, fun _ => ⟨rfl, rfl⟩⟩
    intro h2
    exact absurd h2 h

theorem builtConstraints_config (P : UChainProfile) (n1 M : Nat)
    (Links : List (Option UStaticMeshComponent)) :
    ∀ x ∈ builtConstraints (some P) n1 M Links,
      ∃ J, x = some J ∧ JointConfiguredBy P.Constraint J := by
  intro x hx
  simp only [builtConstraints, List.mem_map, List.mem_range] at hx
  obtain ⟨j, _, rfl⟩ := hx
  exact builtConstraint_config P _ _ _ _

theorem builtLinks_config (P : UChainProfile) (n0 N : Nat) :
    ∀ x ∈ builtLinks (some P) n0 N, ∃ L, x = some L ∧ LinkConfiguredBy P L := by
  intro x hx
  simp only [builtLinks, List.mem_map, List.mem_range] at hx
  obtain ⟨j, _, rfl⟩ := hx
  exact builtLink_config P _ _

theorem updateAt_preserves (Q : UStaticMeshComponent → Prop)
    (xs ys : List (Option UStaticMeshComponent)) (i : Nat)
    (f : UStaticMeshComponent → UStaticMeshComponent)
    (h : TArray.updateAt xs i f = some ys) (hf : ∀ L, Q L → Q (f L))
    (hxs : ∀ x ∈ xs, ∃ L, x = some L ∧ Q L) :
    ∀ y ∈ ys, ∃ L, y = some L ∧ Q L := by
  obtain ⟨x, hx, rfl⟩ := updateAt_some xs ys i f h
  intro y hy
  rcases List.mem_or_eq_of_mem_set hy with hy | rfl
  · exact hxs y hy
  · obtain ⟨L, hL, hQ⟩ := hxs (some x) (List.getElem?_mem hx)
    cases hL
    exact ⟨f x, rfl, hf x hQ⟩

theorem BindAnchors_preserves (Q : UStaticMeshComponent → Prop)
    (hW : ∀ L v, Q L → Q (L.SetWorldLocation v))
    (hA : ∀ L C r n, Q L → Q (L.AttachToComponent C r n))
    (s t : AChainInstanceActor) (h : s.BindAnchors = some t)
    (hs : ∀ x ∈ s.LinkComponents, ∃ L, x = some L ∧ Q L) :
    ∀ x ∈ t.LinkComponents, ∃ L, x = some L ∧ Q L := by
  have h0 : ∀ s1, BindAnchors.anchorLink0 s = some s1 →
      ∀ x ∈ s1.LinkComponents, ∃ L, x = some L ∧ Q L := by
    intro s1 h1
    unfold BindAnchors.anchorLink0 at h1
    split at h1
    · rw [Option.map_eq_some'] at h1
      obtain ⟨Links, hu, rfl⟩ := h1
      exact updateAt_preserves Q _ _ _ _ hu (fun L => hW L _) hs
    · split at h1
      · rw [Option.map_eq_some'] at h1
        obtain ⟨Links, hu, rfl⟩ := h1
        exact updateAt_preserves Q _ _ _ _ hu (fun L => hA L _ _ _) hs
      · cases h1
        exact hs
  have hn : ∀ s1 s2, (∀ x ∈ s1.LinkComponents, ∃ L, x = some L ∧ Q L) →
      BindAnchors.anchorLastLink s1 = some s2 →
      ∀ x ∈ s2.LinkComponents, ∃ L, x = some L ∧ Q L := by
    intro s1 s2 hs1 h2
    unfold BindAnchors.anchorLastLink at h2
    split at h2
    · cases h2
    · split at h2
      · split at h2
        · rw [Option.map_eq_some'] at h2
          obtain ⟨Links, hu, rfl⟩ := h2
          exact updateAt_preserves Q _ _ _ _ hu (fun L => hA L _ _ _) hs1
        · split at h2
          · rw [Option.map_eq_some'] at h2
            obtain ⟨Links, hu, rfl⟩ := h2
            exact updateAt_preserves Q _ _ _ _ hu (fun L => hW L _) hs1
          · cases h2
            exact hs1
      · cases h2
        exact hs1
  unfold AChainInstanceActor.BindAnchors at h
  split at h
  · cases h
    exact hs
  · split at h
    · cases h
    · rename_i s1 h1
      exact hn s1 t (h0 s1 h1) h

/-! ## Lemmas on the default LOD table -/

theorem construct_default_LODLevels :
    (UChainProfile.construct {}).LODLevels =
      [{ MinDistance := 0, MaxDistance := 100000, SegmentCountOverride := 0,
         bSimulatePhysics := true, bEnableCollisions := true, SimulationRateFactor := 1 }] :=
  rfl

theorem GetSegmentCountAtDistance_default_table (P : UChainProfile) (D : FFloat)
    (hLevels : P.LODLevels = (UChainProfile.construct {}).LODLevels) :
    P.GetSegmentCountAtDistance D = some P.GetBaseSegmentCount := by
  rcases loop_cases (FMath.MaxFloat 0 D) P.LODLevels 0 with ⟨h1, _, _⟩ | ⟨i, L, h1, h2, _, _, _⟩
  · exact GetSegmentCountAtDistance_of_none P D h1
  · rw [GetSegmentCountAtDistance_of_index P D i L h1 h2]
    rw [hLevels, construct_default_LODLevels] at h2
    cases i with
    | zero =>
      simp only [List.getElem?_cons_zero, Option.some.injEq] at h2
      subst h2
      simp
    | succ i => simp at h2

/-! ## Lemmas on index safety and degenerate levels -/

theorem GetLODIndexForDistance_cases (P : UChainProfile) (D : FFloat) :
    P.GetLODIndexForDistance D = INDEX_NONE ∨
    ∃ (i : Nat) (L : FChainLODLevel), P.GetLODIndexForDistance D = (i : Int) ∧
      P.LODLevels[i]? = some L ∧ L.Contains (FMath.MaxFloat 0 D) := by
  unfold UChainProfile.GetLODIndexForDistance
  rcases loop_cases (FMath.MaxFloat 0 D) P.LODLevels 0 with ⟨h1, _, _⟩ | ⟨i, L, h1, h2, h3, _, _⟩
  · exact Or.inl h1
  · exact Or.inr ⟨i, L, by simpa using h1, h2, h3⟩

theorem GetSegmentCountAtDistance_eq_resolve (P : UChainProfile) (D : FFloat) :
    P.GetSegmentCountAtDistance D = some (resolveSegmentCount P D) := by
  rcases loop_cases (FMath.MaxFloat 0 D) P.LODLevels 0 with
    ⟨h1, h2, _⟩ | ⟨i, L, h1, h2, _, h4, _⟩
  · rw [GetSegmentCountAtDistance_of_none P D h1]
    simp [resolveSegmentCount, h2, UChainProfile.GetBaseSegmentCount, FMath.Max_eq_max]
  · rw [GetSegmentCountAtDistance_of_index P D i L h1 h2]
    simp only [resolveSegmentCount, h4, UChainProfile.GetBaseSegmentCount, FMath.Max_eq_max]
    split <;> rfl

theorem FFloat.not_lt_of_le_of_le (a b c : FFloat)
    (h1 : FFloat.le a b = true) (h2 : FFloat.le b c = true) : FFloat.lt c a = false := by
  cases a <;> cases b <;> cases c <;>
    simp only [FFloat.le, FFloat.lt, decide_eq_true_eq, decide_eq_false_iff_not, not_lt] at * <;>
    first
      | contradiction
      | rfl
      | exact le_trans h1 h2

theorem Contains_not_Degenerate (L : FChainLODLevel) (d : FFloat) (h : L.Contains d) :
    L.Degenerate = false := by
  unfold FChainLODLevel.Degenerate FFloat.gt
  exact FFloat.not_lt_of_le_of_le _ _ _ h.1 h.2

theorem find?_filter_of_imp {α : Type} (p q : α → Bool) (hqp : ∀ a, q a = true → p a = true) :
    ∀ xs : List α, (xs.filter p).find? q = xs.find? q := by
  intro xs
  induction xs with
  | nil => rfl
  | cons x rest ih =>
    by_cases hq : q x = true
    · have hp := hqp x hq
      simp [List.filter, hp, List.find?, hq]
    · have hq1 : q x = false := by simpa using hq
      by_cases hp : p x = true
      · simp [List.filter, hp, List.find?, hq1, ih]
      · have hp1 : p x = false := by simpa using hp
        simp [List.filter, hp1, List.find?, hq1, ih]

theorem BindAnchors_none_of_no_profile (s : AChainInstanceActor) (hP : s.Profile = none)
    (hne : s.LinkComponents ≠ []) : s.BindAnchors = none := by
  have hlen : ¬ s.LinkComponents.length = 0 := by
    intro h
    exact hne (List.length_eq_zero.mp h)
  unfold AChainInstanceActor.BindAnchors
  simp only [hlen, if_false]
  cases h1 : BindAnchors.anchorLink0 s with
  | none => rfl
  | some s1 =>
    obtain ⟨Links, rfl, _⟩ := anchorLink0_some s s1 h1
    simp [BindAnchors.anchorLastLink, hP]

/-! ## Lemmas on well-formedness -/

theorem builtConstraints_getElem? (P : UChainProfile) (n1 M i : Nat)
    (Links : List (Option UStaticMeshComponent)) (J : UPhysicsConstraintComponent)
    (h : (builtConstraints (some P) n1 M Links)[i]? = some (some J)) :
    i < M ∧ J.ObjectId = n1 + i := by
  simp only [builtConstraints, List.getElem?_map] at h
  rcases Nat.lt_or_ge i M with hi | hi
  · rw [List.getElem?_range hi] at h
    obtain ⟨J1, hJ1, hid, _⟩ := builtConstraint_eq_some P (n1 + i) i
      (pointerAt Links i) (pointerAt Links (i + 1))
    simp only [Option.map_some', hJ1, Option.some.injEq] at h
    subst h
    exact ⟨hi, hid⟩
  · rw [List.getElem?_eq_none (by simpa using hi)] at h
    simp at h

theorem RebuildChain_wellFormed (s t : AChainInstanceActor) (h : s.RebuildChain = some t) :
    ChainWellFormed t := by
  cases hP : s.Profile with
  | none =>
    rw [RebuildChain_absent s hP] at h
    cases h
    refine ⟨?_, ?_, ?_, ?_⟩ <;> simp [AChainInstanceActor.ClearChain]
  | some P =>
    obtain ⟨Links, hR, hmap⟩ := RebuildChain_present s P hP
    rw [h] at hR
    cases hR
    refine ⟨?_, ?_, ?_, ?_⟩
    · intro x hx hnone
      subst hnone
      have hmem : pointerTo none ∈ Links.map pointerTo := List.mem_map_of_mem _ hx
      rw [hmap] at hmem
      simp [pointerTo] at hmem
    · intro x hx
      obtain ⟨J, hJ, _⟩ := builtConstraints_config P _ _ _ x hx
      rw [hJ]
      simp
    · intro i j L1 L2 h1 h2 hid
      have e1 := map_pointerTo_getElem? Links i L1 h1
      have e2 := map_pointerTo_getElem? Links j L2 h2
      rw [hmap] at e1 e2
      have := (range_map_getElem?_some _ _ _ _ e1).1
      have := (range_map_getElem?_some _ _ _ _ e2).1
      omega
    · intro i j J1 J2 h1 h2 hid
      have := (builtConstraints_getElem? P _ _ i _ J1 h1).2
      have := (builtConstraints_getElem? P _ _ j _ J2 h2).2
      omega

theorem BreakLink_wellFormed (s t : AChainInstanceActor) (i : Int)
    (h : s.BreakLink i = some t) (hw : ChainWellFormed s) : ChainWellFormed t := by
  rcases BreakLink_cases s i with h1 | ⟨J, _, hJ, h1⟩
  · rw [h1] at h
    cases h
    exact hw
  · rw [h1] at h
    cases h
    obtain ⟨hL, hC, hdL, hdC⟩ := hw
    have hlt : i.toNat < s.ConstraintComponents.length := by
      rcases Nat.lt_or_ge i.toNat s.ConstraintComponents.length with h2 | h2
      · exact h2
      · rw [List.getElem?_eq_none h2] at hJ; cases hJ
    have hback : ∀ (k : Nat) (J1 : UPhysicsConstraintComponent),
        (s.ConstraintComponents.set i.toNat (some { J with bBroken := true }))[k]? =
          some (some J1) →
        ∃ J0, s.ConstraintComponents[k]? = some (some J0) ∧ J0.ObjectId = J1.ObjectId := by
      intro k J1 hk
      rw [List.getElem?_set] at hk
      by_cases hik : i.toNat = k
      · subst hik
        simp only [hlt, if_true, Option.some.injEq] at hk
        subst hk
        exact ⟨J, hJ, rfl⟩
      · simp only [hik, if_false] at hk
        exact ⟨J1, hk, rfl⟩
    refine ⟨hL, ?_, hdL, ?_⟩
    · intro x hx
      rcases List.mem_or_eq_of_mem_set hx with hx | rfl
      · exact hC x hx
      · simp
    · intro k1 k2 J1 J2 hk1 hk2 hid
      obtain ⟨A, hA, hAid⟩ := hback k1 J1 hk1
      obtain ⟨B, hB, hBid⟩ := hback k2 J2 hk2
      exact hdC k1 k2 A B hA hB (by rw [hAid, hBid]; exact hid)

theorem apply_wellFormed (op : ChainOp) (s t : AChainInstanceActor)
    (h : op.apply s = some t) (hw : ChainWellFormed s) : ChainWellFormed t := by
  cases op with
  | InitializeFromProfile =>
    simp only [ChainOp.apply, AChainInstanceActor.InitializeFromProfile] at h
    split at h
    · cases h; exact hw
    · exact RebuildChain_wellFormed s t h
  | RebuildChain => exact RebuildChain_wellFormed s t h
  | SetStartAnchor NewAnchor =>
    simp only [ChainOp.apply, AChainInstanceActor.SetStartAnchor] at h
    split at h
    · exact RebuildChain_wellFormed _ t h
    · cases h; exact hw
  | SetEndAnchor NewAnchor =>
    simp only [ChainOp.apply, AChainInstanceActor.SetEndAnchor] at h
    split at h
    · exact RebuildChain_wellFormed _ t h
    · cases h; exact hw
  | SetTargetLength NewLength =>
    simp only [ChainOp.apply, Option.some.injEq] at h
    subst h
    unfold AChainInstanceActor.SetTargetLength
    split
    · exact hw
    · split
      · exact hw
      · exact hw
  | BreakLink LinkIndex => exact BreakLink_wellFormed s t LinkIndex h hw
  | SetProfile NewProfile =>
    simp only [ChainOp.apply, Option.some.injEq] at h
    subst h
    exact hw

theorem runOps_wellFormed : ∀ (ops : List ChainOp) (s t : AChainInstanceActor),
    runOps ops s = some t → ChainWellFormed s → ChainWellFormed t := by
  intro ops
  induction ops with
  | nil =>
    intro s t h hw
    simp only [runOps, Option.some.injEq] at h
    subst h
    exact hw
  | cons op ops ih =>
    intro s t h hw
    simp only [runOps] at h
    split at h
    · cases h
    · rename_i s1 h1
      exact ih s1 t h (apply_wellFormed op s s1 h1 hw)

theorem wellFormed_of_empty (s : AChainInstanceActor) (hL : s.LinkComponents = [])
    (hJ : s.ConstraintComponents = []) : ChainWellFormed s := by
  refine ⟨?_, ?_, ?_, ?_⟩ <;> simp [hL, hJ]

/-! ## Theorems on the chain instance -/

/-- C4: with a profile present, `RebuildChain` from any prior state completes,
and with `N = CurrentSegmentCount` the link list has `N` elements, the joint
list has `N - 1` elements, and for every `i` in `[0, N-1)` joint `i` has link
`i` of the new list as its first body and link `i+1` as its second body; the
links of the new list are pairwise distinct objects. -/
theorem RebuildChain_links_and_joints (s : AChainInstanceActor) (P : UChainProfile)
    (hP : s.Profile = some P) :
    ∃ t, s.RebuildChain = some t ∧
      (t.LinkComponents.length : Int) = t.CurrentSegmentCount ∧
      (t.ConstraintComponents.length : Int) = t.CurrentSegmentCount - 1 ∧
      (∀ i : Nat, (i : Int) < t.CurrentSegmentCount - 1 →
        ∃ J L1 L2, t.ConstraintComponents[i]? = some (some J) ∧
          t.LinkComponents[i]? = some (some L1) ∧
          t.LinkComponents[i + 1]? = some (some L2) ∧
          J.ConstrainedComponent1 = some L1.ObjectId ∧
          J.ConstrainedComponent2 = some L2.ObjectId) ∧
      (∀ (i j : Nat) (L1 L2 : UStaticMeshComponent),
        t.LinkComponents[i]? = some (some L1) → t.LinkComponents[j]? = some (some L2) →
        L1.ObjectId = L2.ObjectId → i = j) := by
  obtain ⟨Links, hR, hmap⟩ := RebuildChain_present s P hP
  obtain ⟨hN2, hNcast, _⟩ := toNat_Max_two P.Visual.DefaultSegmentCount
  have hlen : Links.length = (FMath.Max 2 P.Visual.DefaultSegmentCount).toNat := by
    have := congrArg List.length hmap
    simpa using this
  refine ⟨_, hR, ?_, ?_, ?_, ?_⟩
  · simp only [builtState]
    rw [hlen, hNcast]
  · simp only [builtState, builtConstraints, List.length_map, List.length_range]
    omega
  · intro i hi
    simp only [builtState] at hi
    have hi1 : i < (FMath.Max 2 P.Visual.DefaultSegmentCount).toNat - 1 := by omega
    obtain ⟨J, hJ, _, hJ1, hJ2, _⟩ := builtConstraint_eq_some P
      (s.NextObjectId + (FMath.Max 2 P.Visual.DefaultSegmentCount).toNat + i) i
      (pointerAt (builtLinks (some P) s.NextObjectId
        (FMath.Max 2 P.Visual.DefaultSegmentCount).toNat) i)
      (pointerAt (builtLinks (some P) s.NextObjectId
        (FMath.Max 2 P.Visual.DefaultSegmentCount).toNat) (i + 1))
    rw [pointerAt_builtLinks P _ _ i (by omega)] at hJ1
    rw [pointerAt_builtLinks P _ _ (i + 1) (by omega)] at hJ2
    obtain ⟨L1, hL1, hid1⟩ := getElem?_of_map_pointerTo Links i (s.NextObjectId + i)
      (by rw [hmap]; exact range_map_getElem? _ _ i (by omega))
    obtain ⟨L2, hL2, hid2⟩ := getElem?_of_map_pointerTo Links (i + 1) (s.NextObjectId + (i + 1))
      (by rw [hmap]; exact range_map_getElem? _ _ (i + 1) (by omega))
    refine ⟨J, L1, L2, ?_, hL1, hL2, by rw [hJ1, hid1], by rw [hJ2, hid2]⟩
    simp only [builtState, builtConstraints]
    rw [List.getElem?_map, List.getElem?_range hi1]
    simpa using hJ
  · intro i j L1 L2 h1 h2 hid
    have e1 := map_pointerTo_getElem? Links i L1 h1
    have e2 := map_pointerTo_getElem? Links j L2 h2
    rw [hmap] at e1 e2
    have := (range_map_getElem?_some _ _ _ _ e1).1
    have := (range_map_getElem?_some _ _ _ _ e2).1
    omega

/-- C4 at `exampleActor`: the rebuild completes with as many links as
`CurrentSegmentCount`. -/
theorem RebuildChain_links_and_joints_witness :
    exampleActor.Profile = some exampleProfile ∧
    ∃ t, exampleActor.RebuildChain = some t ∧
      (t.LinkComponents.length : Int) = t.CurrentSegmentCount ∧
      (t.ConstraintComponents.length : Int) = t.CurrentSegmentCount - 1 :=
  ⟨rfl, (RebuildChain_links_and_joints exampleActor exampleProfile rfl).imp
    (fun _ h => ⟨h.1, h.2.1, h.2.2.1⟩)⟩

/-- C7: for every chain state and every index outside `[0, |joints|)`,
`BreakLink` completes and returns the state unchanged. -/
theorem BreakLink_out_of_range (s : AChainInstanceActor) (i : Int)
    (h : i < 0 ∨ (s.ConstraintComponents.length : Int) ≤ i) :
    s.BreakLink i = some s :=
  BreakLink_of_invalid s i (by omega)

/-- C7 at `oneJointActor` with index 1, which equals the number of joints. -/
theorem BreakLink_out_of_range_witness :
    ((1 : Int) < 0 ∨ (oneJointActor.ConstraintComponents.length : Int) ≤ 1) ∧
    oneJointActor.BreakLink 1 = some oneJointActor :=
  ⟨Or.inr (by decide), BreakLink_out_of_range oneJointActor 1 (Or.inr (by decide))⟩

/-- C8: for every chain state and every index, `BreakLink` applied twice
yields the same state as `BreakLink` applied once. -/
theorem BreakLink_idempotent (s : AChainInstanceActor) (i : Int) :
    (s.BreakLink i).bind (fun t => t.BreakLink i) = s.BreakLink i := by
  rcases BreakLink_cases s i with h | ⟨J, hi, hJ, h⟩
  · rw [h]; exact h
  · rw [h]
    show AChainInstanceActor.BreakLink _ i = _
    have hlt : i.toNat < s.ConstraintComponents.length := by
      rcases Nat.lt_or_ge i.toNat s.ConstraintComponents.length with h1 | h1
      · exact h1
      · rw [List.getElem?_eq_none h1] at hJ; cases hJ
    rw [BreakLink_of_joint _ i { J with bBroken := true } hi
      (by simp [List.getElem?_set, hlt])]
    simp

/-- C5: from every Empty state (no links, no joints) every sequence of
`InitializeFromProfile`, `RebuildChain`, `SetStartAnchor`, `SetEndAnchor`,
`SetTargetLength`, `BreakLink` and changes of the profile reference runs to
completion, and in the state reached either both lists are empty, or
`|Links| == CurrentSegmentCount` and `|Joints| == |Links| - 1`. -/
theorem reachable_ChainInvariant (s0 : AChainInstanceActor) (ops : List ChainOp)
    (hLinks : s0.LinkComponents = []) (hJoints : s0.ConstraintComponents = []) :
    ∃ s, runOps ops s0 = some s ∧
      ((s.LinkComponents = [] ∧ s.ConstraintComponents = []) ∨
        ((s.LinkComponents.length : Int) = s.CurrentSegmentCount ∧
          (s.ConstraintComponents.length : Int) = (s.LinkComponents.length : Int) - 1)) := by
  have h0 : ChainInvariant s0 := Or.inl ⟨hLinks, hJoints⟩
  obtain ⟨s, hs, hinv⟩ := runOps_invariant ops s0 h0
  exact ⟨s, hs, hinv⟩

/-- C5 at `exampleActor`: a rebuild, a break, the loss of the profile, a new
start anchor and a second break. -/
theorem reachable_ChainInvariant_witness :
    exampleActor.LinkComponents = [] ∧ exampleActor.ConstraintComponents = [] ∧
    ∃ s, runOps [.RebuildChain, .BreakLink 0, .SetProfile none, .SetStartAnchor {},
        .BreakLink 1] exampleActor = some s ∧
      ((s.LinkComponents = [] ∧ s.ConstraintComponents = []) ∨
        ((s.LinkComponents.length : Int) = s.CurrentSegmentCount ∧
          (s.ConstraintComponents.length : Int) = (s.LinkComponents.length : Int) - 1)) :=
  ⟨rfl, rfl, reachable_ChainInvariant exampleActor _ rfl rfl⟩

/-- C6: `RebuildChain` is idempotent. For every chain state, `RebuildChain`
applied twice (profile and anchors untouched in between) completes both
times and leaves a state observably equal to the one the first call leaves:
same profile, anchors and segment count, the same links in number, order,
configuration, position and attachment, the same joints in number, order and
configuration, with the same endpoints by link index. No component of the
first build is retained: each one is destroyed by the second call, and no
component of the second build is one of them. -/
theorem RebuildChain_idempotent (s : AChainInstanceActor) :
    ∃ s1 s2, s.RebuildChain = some s1 ∧ s1.RebuildChain = some s2 ∧
      s2.observe = s1.observe ∧
      s2.LinkComponents.length = s1.LinkComponents.length ∧
      s2.ConstraintComponents.length = s1.ConstraintComponents.length ∧
      (∀ L, some L ∈ s1.LinkComponents → L.ObjectId ∈ s2.DestroyedObjects ∧
        ∀ L2, some L2 ∈ s2.LinkComponents → L2.ObjectId ≠ L.ObjectId) ∧
      (∀ J, some J ∈ s1.ConstraintComponents → J.ObjectId ∈ s2.DestroyedObjects ∧
        ∀ J2, some J2 ∈ s2.ConstraintComponents → J2.ObjectId ≠ J.ObjectId) := by
  obtain ⟨s1, h1, _⟩ := RebuildChain_invariant s
  obtain ⟨s2, h2, hobs⟩ := RebuildChain_twice_observe s s1 h1
  obtain ⟨_, hL1, hJ1⟩ := RebuildChain_fresh s s1 h1
  obtain ⟨hD, hL2, hJ2⟩ := RebuildChain_fresh s1 s2 h2
  obtain ⟨hdL, hdJ⟩ := ClearChain_destroys s1
  have hlenL := congrArg (fun o => o.Links.length) hobs
  have hlenJ := congrArg (fun o => o.Joints.length) hobs
  simp only [AChainInstanceActor.observe, List.length_map] at hlenL hlenJ
  refine ⟨s1, s2, h1, h2, hobs, hlenL, hlenJ, ?_, ?_⟩
  · intro L hL
    refine ⟨by rw [hD]; exact hdL L hL, ?_⟩
    intro L2 hL2m
    have := (hL1 L hL).2
    have := (hL2 L2 hL2m).1
    omega
  · intro J hJ
    refine ⟨by rw [hD]; exact hdJ J hJ, ?_⟩
    intro J2 hJ2m
    have := (hJ1 J hJ).2
    have := (hJ2 J2 hJ2m).1
    omega

/-- C11: for every profile with `bSupportsLooseEnd = false` and both anchors
world-space, `RebuildChain` completes with `N = max(2, DefaultSegmentCount)`
links, link 0 at the start anchor's point and the last link at the end
anchor's point; for `DefaultSegmentCount = 8` that is 8 links, 7 joints and
link 7 at the end anchor's point. -/
theorem RebuildChain_world_anchors (s : AChainInstanceActor) (P : UChainProfile)
    (hP : s.Profile = some P) (hloose : P.bSupportsLooseEnd = false)
    (hS : s.StartAnchor.bUseWorldLocation = true) (hE : s.EndAnchor.bUseWorldLocation = true) :
    ∃ t L0 Ln, s.RebuildChain = some t ∧
      (t.LinkComponents.length : Int) = max 2 P.Visual.DefaultSegmentCount ∧
      t.LinkComponents[0]? = some (some L0) ∧
      L0.WorldLocation = some s.StartAnchor.WorldLocation ∧
      t.LinkComponents[t.LinkComponents.length - 1]? = some (some Ln) ∧
      Ln.WorldLocation = some s.EndAnchor.WorldLocation ∧
      (P.Visual.DefaultSegmentCount = 8 →
        t.LinkComponents.length = 8 ∧ t.ConstraintComponents.length = 7 ∧
        t.LinkComponents[7]? = some (some Ln)) := by
  obtain ⟨hN2, hNcast, _⟩ := toNat_Max_two P.Visual.DefaultSegmentCount
  obtain ⟨L0, h0, _, _⟩ := builtLinks_getElem? P s.NextObjectId
    (FMath.Max 2 P.Visual.DefaultSegmentCount).toNat 0 (by omega)
  obtain ⟨Ln, hn, _, _⟩ := builtLinks_getElem? P s.NextObjectId
    (FMath.Max 2 P.Visual.DefaultSegmentCount).toNat
    ((FMath.Max 2 P.Visual.DefaultSegmentCount).toNat - 1) (by omega)
  have hlenB : (builtState s P).LinkComponents.length =
      (FMath.Max 2 P.Visual.DefaultSegmentCount).toNat := by
    simp [builtState, builtLinks_length]
  have hP1 : (builtState s P).Profile = some P := by
    simpa [builtState, AChainInstanceActor.ClearChain] using hP
  have hB := BindAnchors_world (builtState s P) P L0 Ln hP1 hloose
    (by simpa [builtState, AChainInstanceActor.ClearChain] using hS)
    (by simpa [builtState, AChainInstanceActor.ClearChain] using hE)
    (by rw [hlenB]; exact hN2) (by simpa [builtState] using h0)
    (by rw [hlenB]; simpa [builtState] using hn)
  have hR : s.RebuildChain = (builtState s P).BindAnchors := by
    unfold AChainInstanceActor.RebuildChain
    simp only [ClearChain_BuildChain_eq s P hP]
  rw [hB] at hR
  have hlast : ((((builtState s P).LinkComponents.set 0
      (some (L0.SetWorldLocation (builtState s P).StartAnchor.WorldLocation))).set
        ((builtState s P).LinkComponents.length - 1)
        (some (Ln.SetWorldLocation (builtState s P).EndAnchor.WorldLocation))))[
          (FMath.Max 2 P.Visual.DefaultSegmentCount).toNat - 1]? =
      some (some (Ln.SetWorldLocation s.EndAnchor.WorldLocation)) := by
    rw [hlenB, List.getElem?_set]
    simp only [List.length_set, hlenB, if_true]
    have : (FMath.Max 2 P.Visual.DefaultSegmentCount).toNat - 1 <
        (FMath.Max 2 P.Visual.DefaultSegmentCount).toNat := by omega
    simp only [this, if_true]
    rfl
  refine ⟨_, L0.SetWorldLocation s.StartAnchor.WorldLocation,
    Ln.SetWorldLocation s.EndAnchor.WorldLocation, hR, ?_, ?_, rfl, ?_, rfl, ?_⟩
  · simp only [List.length_set, hlenB]
    rw [hNcast]
    exact FMath.Max_eq_max _ _
  · rw [hlenB, List.getElem?_set]
    have : ¬ ((FMath.Max 2 P.Visual.DefaultSegmentCount).toNat - 1 = 0) := by omega
    simp only [this, if_false, List.getElem?_set, List.length_set, hlenB]
    have h2 : 0 < (FMath.Max 2 P.Visual.DefaultSegmentCount).toNat := by omega
    simp only [h2, if_true]
    rfl
  · simp only [List.length_set, hlenB]
    rw [hlenB] at hlast
    exact hlast
  · intro h8
    have hN8 : (FMath.Max 2 P.Visual.DefaultSegmentCount).toNat = 8 := by
      rw [h8]; decide
    refine ⟨by simp only [List.length_set, hlenB, hN8], ?_, ?_⟩
    · simp [builtState, builtConstraints, hN8]
    · rw [hN8] at hlast
      exact hlast

/-- C11 at `eightSegmentActor`: 8 links, 7 joints, link 0 at `(1, 2, 3)` and
link 7 at `(4, 5, 6)`. -/
theorem RebuildChain_world_anchors_witness :
    ∃ t L0 L7, eightSegmentActor.RebuildChain = some t ∧
      t.LinkComponents.length = 8 ∧ t.ConstraintComponents.length = 7 ∧
      t.LinkComponents[0]? = some (some L0) ∧ L0.WorldLocation = some ⟨1, 2, 3⟩ ∧
      t.LinkComponents[7]? = some (some L7) ∧ L7.WorldLocation = some ⟨4, 5, 6⟩ := by
  obtain ⟨t, L0, L7, h1, _, h3, h4, _, h6, h7⟩ :=
    RebuildChain_world_anchors eightSegmentActor eightSegmentProfile rfl rfl rfl rfl
  obtain ⟨h8, h9, h10⟩ := h7 rfl
  exact ⟨t, L0, L7, h1, h8, h9, h3, h4, h10, h6⟩

/-- C12: `SetStartAnchor(a)` yields, with the auto-rebuild flag false, the
same state with only `StartAnchor` replaced by `a`, and with the flag true,
exactly what `RebuildChain` produces from the state with `StartAnchor`
replaced by `a`; the same holds for `SetEndAnchor` and `EndAnchor`. Either
call completes and leaves the new anchor in place, the other anchor, the
profile and the flag as they were. -/
theorem SetAnchor_replace_then_rebuild (s : AChainInstanceActor) (a : FChainAnchor) :
    (s.SetStartAnchor a =
      if s.bAutoRebuild = true then ({ s with StartAnchor := a } : AChainInstanceActor).RebuildChain
      else some { s with StartAnchor := a }) ∧
    (s.SetEndAnchor a =
      if s.bAutoRebuild = true then ({ s with EndAnchor := a } : AChainInstanceActor).RebuildChain
      else some { s with EndAnchor := a }) ∧
    (∃ t, s.SetStartAnchor a = some t ∧ t.StartAnchor = a ∧ t.EndAnchor = s.EndAnchor ∧
      t.Profile = s.Profile ∧ t.bAutoRebuild = s.bAutoRebuild) ∧
    (∃ t, s.SetEndAnchor a = some t ∧ t.EndAnchor = a ∧ t.StartAnchor = s.StartAnchor ∧
      t.Profile = s.Profile ∧ t.bAutoRebuild = s.bAutoRebuild) := by
  refine ⟨rfl, rfl, ?_, ?_⟩
  · unfold AChainInstanceActor.SetStartAnchor
    simp only
    split
    · obtain ⟨t, ht, _⟩ := RebuildChain_invariant { s with StartAnchor := a }
      obtain ⟨h1, h2, h3, h4, _⟩ := RebuildChain_frame _ t ht
      exact ⟨t, ht, h2, h3, h1, h4⟩
    · exact ⟨_, rfl, rfl, rfl, rfl, rfl⟩
  · unfold AChainInstanceActor.SetEndAnchor
    simp only
    split
    · obtain ⟨t, ht, _⟩ := RebuildChain_invariant { s with EndAnchor := a }
      obtain ⟨h1, h2, h3, h4, _⟩ := RebuildChain_frame _ t ht
      exact ⟨t, ht, h3, h2, h1, h4⟩
    · exact ⟨_, rfl, rfl, rfl, rfl, rfl⟩

/-- C13: `RebuildChain` always completes; with the profile present the result
is a complete chain (`|links| >= 2` and `|joints| == |links| - 1`), and with
the profile absent, whatever links and joints existed before, both lists are
empty. -/
theorem RebuildChain_never_half_built (s : AChainInstanceActor) :
    ∃ t, s.RebuildChain = some t ∧
      match s.Profile with
      | some _ =>
        2 ≤ t.LinkComponents.length ∧
          (t.ConstraintComponents.length : Int) = (t.LinkComponents.length : Int) - 1
      | none => t.LinkComponents = [] ∧ t.ConstraintComponents = [] := by
  cases hP : s.Profile with
  | none =>
    refine ⟨_, RebuildChain_absent s hP, ?_⟩
    simp [AChainInstanceActor.ClearChain]
  | some P =>
    obtain ⟨t, ht, h2, hJ⟩ := RebuildChain_complete s P hP
    exact ⟨t, ht, h2, hJ⟩

/-- C14: with the profile absent `InitializeFromProfile` returns the whole
state unchanged, links and joints of an earlier build included; with the
profile present it yields exactly what `RebuildChain` yields. -/
theorem InitializeFromProfile_cases (s : AChainInstanceActor) :
    (s.Profile = none → s.InitializeFromProfile = some s) ∧
    (∀ P, s.Profile = some P →
      s.InitializeFromProfile = s.RebuildChain ∧ ∃ t, s.InitializeFromProfile = some t) := by
  constructor
  · intro h
    simp [AChainInstanceActor.InitializeFromProfile, h]
  · intro P h
    have h1 : s.InitializeFromProfile = s.RebuildChain := by
      simp [AChainInstanceActor.InitializeFromProfile, h]
    obtain ⟨t, ht, _⟩ := RebuildChain_invariant s
    exact ⟨h1, t, by rw [h1]; exact ht⟩

/-- C14 at `nullJointActor`, which has no profile and holds two links and a
joint entry: nothing changes. -/
theorem InitializeFromProfile_cases_witness :
    nullJointActor.Profile = none ∧
    nullJointActor.InitializeFromProfile = some nullJointActor :=
  ⟨rfl, (InitializeFromProfile_cases nullJointActor).1 rfl⟩

/-- C15: whenever the profile is absent or its `bAllowDynamicLengthChange` is
false, `SetTargetLength` returns the state unchanged for every length; the
function is total. -/
theorem SetTargetLength_guarded (s : AChainInstanceActor) (NewLength : FFloat)
    (h : s.Profile = none ∨ ∃ P, s.Profile = some P ∧ P.bAllowDynamicLengthChange = false) :
    s.SetTargetLength NewLength = s := by
  rcases h with h | ⟨P, hP, hflag⟩
  · simp [AChainInstanceActor.SetTargetLength, h]
  · simp [AChainInstanceActor.SetTargetLength, hP, hflag]

/-- C15 at `fixedLengthActor`, whose profile forbids dynamic length change. -/
theorem SetTargetLength_guarded_witness :
    fixedLengthActor.SetTargetLength 250 = fixedLengthActor :=
  SetTargetLength_guarded fixedLengthActor 250
    (Or.inr ⟨{ bAllowDynamicLengthChange := false }, rfl, rfl⟩)

/-- C16, evaluated on the code: `flaggedAnchor` has `bUseWorldLocation = true`
and `WorldLocation = (1, 2, 3)`, and `BindAnchors` puts link 0 at
`(1, 2, 3)`; but `ResolveLocation` tests `Component` instead of the flag and
returns the component's location `(7, 8, 9)`. With no component it returns
`WorldLocation`, and with a component it returns the socket location when a
socket is named and the component location otherwise, whatever the flag. -/
theorem ResolveLocation_ignores_flag :
    flaggedAnchor.bUseWorldLocation = true ∧
    flaggedAnchor.WorldLocation = ⟨1, 2, 3⟩ ∧
    flaggedAnchor.ResolveLocation = ⟨7, 8, 9⟩ ∧
    flaggedAnchor.ResolveLocation ≠ flaggedAnchor.WorldLocation ∧
    (∃ t L0, flaggedAnchorActor.BindAnchors = some t ∧
      t.LinkComponents[0]? = some (some L0) ∧ L0.WorldLocation = some ⟨1, 2, 3⟩) ∧
    (∀ A : FChainAnchor, A.Component = none → A.ResolveLocation = A.WorldLocation) ∧
    (∀ (A : FChainAnchor) (C : USceneComponent), A.Component = some C →
      A.ResolveLocation =
        if A.SocketName ≠ .NAME_None then C.GetSocketLocation A.SocketName
        else C.GetComponentLocation) := by
  refine ⟨rfl, rfl, by decide, by decide, ?_, ?_, ?_⟩
  · exact ⟨{ flaggedAnchorActor with
        LinkComponents := [some { ObjectId := 0, Name := .NAME_None,
                                  WorldLocation := some ⟨1, 2, 3⟩ },
                           some { ObjectId := 1, Name := .NAME_None }] },
      { ObjectId := 0, Name := .NAME_None, WorldLocation := some ⟨1, 2, 3⟩ }, rfl, rfl, rfl⟩
  · intro A h
    simp [FChainAnchor.ResolveLocation, h]
  · intro A C h
    simp [FChainAnchor.ResolveLocation, h]

/-- C17, evaluated on the code: `observerActor` has no authority and no links
or joints. `BeginPlay` leaves it unchanged, but `SetStartAnchor`,
`SetEndAnchor` and `OnConstruction` each run `RebuildChain` and leave 8 links
and 7 joints: only `BeginPlay` consults the authority. -/
theorem rebuild_without_authority :
    observerActor.bHasAuthority = false ∧
    observerActor.LinkComponents = [] ∧ observerActor.ConstraintComponents = [] ∧
    observerActor.BeginPlay = some observerActor ∧
    (observerActor.SetStartAnchor {}).map
      (fun t => (t.LinkComponents.length, t.ConstraintComponents.length)) = some (8, 7) ∧
    (observerActor.SetEndAnchor {}).map
      (fun t => (t.LinkComponents.length, t.ConstraintComponents.length)) = some (8, 7) ∧
    (observerActor.OnConstruction FTransform.Identity).map
      (fun t => (t.LinkComponents.length, t.ConstraintComponents.length)) = some (8, 7) ∧
    (∀ s : AChainInstanceActor, s.bHasAuthority = false → s.BeginPlay = some s) := by
  refine ⟨rfl, rfl, rfl, rfl, by decide, by decide, by decide, ?_⟩
  intro s h
  simp [AChainInstanceActor.BeginPlay, h]

/-- C18: for every profile, `BuildChain` appends `max(2, DefaultSegmentCount) - 1`
joints, none null, and each carries the configuration determined by the
profile's constraint settings (swing on both axes, twist, the three linear
axes all limited or all free, stiffness-only drives, break thresholds); so
does every joint of the chain `RebuildChain` leaves. -/
theorem BuildChain_joint_configuration (s : AChainInstanceActor) (P : UChainProfile)
    (hP : s.Profile = some P) :
    (∃ t New, s.BuildChain = some t ∧
      t.ConstraintComponents = s.ConstraintComponents ++ New ∧
      (New.length : Int) = max 2 P.Visual.DefaultSegmentCount - 1 ∧
      ∀ x ∈ New, ∃ J, x = some J ∧ JointConfiguredBy P.Constraint J) ∧
    (∃ t, s.RebuildChain = some t ∧
      ∀ x ∈ t.ConstraintComponents, ∃ J, x = some J ∧ JointConfiguredBy P.Constraint J) := by
  obtain ⟨hN2, hNcast, _⟩ := toNat_Max_two P.Visual.DefaultSegmentCount
  constructor
  · refine ⟨_, _, BuildChain_eq s P hP, rfl, ?_, builtConstraints_config P _ _ _⟩
    simp only [builtConstraints, List.length_map, List.length_range]
    rw [← FMath.Max_eq_max]
    omega
  · obtain ⟨Links, hR, _⟩ := RebuildChain_present s P hP
    refine ⟨_, hR, ?_⟩
    simp only [builtState]
    exact builtConstraints_config P _ _ _

/-- C18 at `ropeActor`, whose linear limit is 5: the build appends 7 joints,
all configured by the profile. -/
theorem BuildChain_joint_configuration_witness :
    ∃ t New, ropeActor.BuildChain = some t ∧
      t.ConstraintComponents = ropeActor.ConstraintComponents ++ New ∧
      (New.length : Int) = 7 ∧
      ∀ x ∈ New, ∃ J, x = some J ∧
        JointConfiguredBy { LinearLimit := 5 } J := by
  obtain ⟨t, New, h1, h2, h3, h4⟩ := (BuildChain_joint_configuration ropeActor
    { Physics := { CollisionProfileName := .Text "Rope" }, Constraint := { LinearLimit := 5 } }
    rfl).1
  exact ⟨t, New, h1, h2, h3, h4⟩

/-- C19: for every profile, `BuildChain` appends `max(2, DefaultSegmentCount)`
links, none null, and each carries the configuration taken from the profile
(mesh, relative transform, simulation on, mass, dampings, collision enabled
for query and physics, visible, and the named collision profile when one is
set, the collision channel only otherwise); so does every link of the chain
`RebuildChain` leaves. -/
theorem BuildChain_link_configuration (s : AChainInstanceActor) (P : UChainProfile)
    (hP : s.Profile = some P) :
    (∃ t New, s.BuildChain = some t ∧
      t.LinkComponents = s.LinkComponents ++ New ∧
      (New.length : Int) = max 2 P.Visual.DefaultSegmentCount ∧
      ∀ x ∈ New, ∃ L, x = some L ∧ LinkConfiguredBy P L) ∧
    (∃ t, s.RebuildChain = some t ∧
      ∀ x ∈ t.LinkComponents, ∃ L, x = some L ∧ LinkConfiguredBy P L) := by
  obtain ⟨hN2, hNcast, _⟩ := toNat_Max_two P.Visual.DefaultSegmentCount
  constructor
  · refine ⟨_, _, BuildChain_eq s P hP, rfl, ?_, builtLinks_config P _ _⟩
    rw [builtLinks_length, hNcast]
    exact FMath.Max_eq_max _ _
  · obtain ⟨t, ht, _⟩ := RebuildChain_invariant s
    refine ⟨t, ht, ?_⟩
    have hB : (builtState s P).BindAnchors = some t := by
      have := ht
      unfold AChainInstanceActor.RebuildChain at this
      simpa only [ClearChain_BuildChain_eq s P hP] using this
    refine BindAnchors_preserves (LinkConfiguredBy P) (fun _ _ h => h) (fun _ _ _ _ h => h)
      (builtState s P) t hB ?_
    simp only [builtState]
    exact builtLinks_config P _ _

/-- C19 at `ropeActor`, whose profile names the collision profile `"Rope"`:
the build appends 8 links, all configured by the profile. -/
theorem BuildChain_link_configuration_witness :
    ∃ t New, ropeActor.BuildChain = some t ∧
      t.LinkComponents = ropeActor.LinkComponents ++ New ∧
      (New.length : Int) = 8 ∧
      ∀ x ∈ New, ∃ L, x = some L ∧ L.CollisionProfileName = some (.Text "Rope") ∧
        L.CollisionObjectType = none := by
  obtain ⟨t, New, h1, h2, h3, h4⟩ := (BuildChain_link_configuration ropeActor
    { Physics := { CollisionProfileName := .Text "Rope" }, Constraint := { LinearLimit := 5 } }
    rfl).1
  refine ⟨t, New, h1, h2, h3, ?_⟩
  intro x hx
  obtain ⟨L, hL, hc⟩ := h4 x hx
  exact ⟨L, hL, hc.2.2.2.2.2.2.2.2.1 (by decide)⟩

/-- C20: the builder uses the profile's base count and never the LOD table.
After a rebuild `CurrentSegmentCount == GetBaseSegmentCount() ==
max(2, DefaultSegmentCount)`, and replacing the LOD table by any other
leaves that count the same; and for a profile whose LOD table is the
constructor's default the count equals `GetSegmentCountAtDistance(D)` for
every distance `D`. -/
theorem RebuildChain_uses_base_count (s : AChainInstanceActor) (P : UChainProfile)
    (hP : s.Profile = some P) :
    ∃ t, s.RebuildChain = some t ∧
      t.CurrentSegmentCount = P.GetBaseSegmentCount ∧
      P.GetBaseSegmentCount = max 2 P.Visual.DefaultSegmentCount ∧
      (∀ Levels : List FChainLODLevel, ∃ u,
        ({ s with Profile := some { P with LODLevels := Levels } } :
          AChainInstanceActor).RebuildChain = some u ∧
        u.CurrentSegmentCount = t.CurrentSegmentCount) ∧
      (P.LODLevels = (UChainProfile.construct {}).LODLevels →
        ∀ D : FFloat, P.GetSegmentCountAtDistance D = some t.CurrentSegmentCount) := by
  obtain ⟨Links, hR, _⟩ := RebuildChain_present s P hP
  refine ⟨_, hR, rfl, FMath.Max_eq_max _ _, ?_, ?_⟩
  · intro Levels
    obtain ⟨Links1, hR1, _⟩ := RebuildChain_present
      { s with Profile := some { P with LODLevels := Levels } }
      { P with LODLevels := Levels } rfl
    exact ⟨_, hR1, rfl⟩
  · intro hLevels D
    exact GetSegmentCountAtDistance_default_table P D hLevels

/-- C20 at `eightSegmentActor`, whose profile has the constructor's default
LOD table: the rebuilt count is 8, and it is the resolved count at distance
200000, beyond the table's range. -/
theorem RebuildChain_uses_base_count_witness :
    ∃ t, eightSegmentActor.RebuildChain = some t ∧ t.CurrentSegmentCount = 8 ∧
      eightSegmentProfile.GetSegmentCountAtDistance 200000 = some t.CurrentSegmentCount := by
  obtain ⟨t, h1, h2, _, _, h5⟩ :=
    RebuildChain_uses_base_count eightSegmentActor eightSegmentProfile rfl
  exact ⟨t, h1, h2, h5 rfl 200000⟩

/-- C21: index safety of the LOD lookup. For every profile and distance,
`GetLODIndexForDistance` returns `INDEX_NONE` or an index `i` with
`0 <= i < |LODLevels|`; whenever it is not `INDEX_NONE` the table access
`LODLevels[LODIndex]` succeeds, so `GetSegmentCountAtDistance` never takes its
out-of-range branch; for an empty table the index is `INDEX_NONE`. -/
theorem GetLODIndexForDistance_in_bounds (P : UChainProfile) (D : FFloat) :
    (P.GetLODIndexForDistance D = INDEX_NONE ∨
      (0 ≤ P.GetLODIndexForDistance D ∧
        P.GetLODIndexForDistance D < (P.LODLevels.length : Int))) ∧
    (P.GetLODIndexForDistance D ≠ INDEX_NONE →
      TArray.IsValidIndex P.LODLevels (P.GetLODIndexForDistance D) = true ∧
      ∃ L, TArray.get? P.LODLevels (P.GetLODIndexForDistance D) = some L) ∧
    (∃ n, P.GetSegmentCountAtDistance D = some n) ∧
    (P.LODLevels = [] → P.GetLODIndexForDistance D = INDEX_NONE) := by
  have hbound : ∀ (i : Nat) (L : FChainLODLevel), P.LODLevels[i]? = some L →
      i < P.LODLevels.length := by
    intro i L h
    rcases Nat.lt_or_ge i P.LODLevels.length with h1 | h1
    · exact h1
    · rw [List.getElem?_eq_none h1] at h; cases h
  refine ⟨?_, ?_, ⟨_, GetSegmentCountAtDistance_eq_resolve P D⟩, ?_⟩
  · rcases GetLODIndexForDistance_cases P D with h | ⟨i, L, h, hL, _⟩
    · exact Or.inl h
    · right
      rw [h]
      have := hbound i L hL
      omega
  · intro hne
    rcases GetLODIndexForDistance_cases P D with h | ⟨i, L, h, hL, _⟩
    · exact absurd h hne
    · rw [h]
      have := hbound i L hL
      refine ⟨(IsValidIndex_iff _ _).2 ⟨by omega, by omega⟩, L, ?_⟩
      rw [TArray.get?_natCast]
      exact hL
  · intro hnil
    rcases GetLODIndexForDistance_cases P D with h | ⟨i, L, _, hL, _⟩
    · exact h
    · rw [hnil] at hL
      simp at hL

/-- C22: `RebuildChain` is total. For every state, profile present or absent,
`ClearChain(); BuildChain()` completes (no access of the constraint loop is
out of bounds), `BindAnchors()` completes on its result (no access of link 0
or of the last link faults and the profile is not read through a null
pointer), and the state it is called on has links only if the profile is
present. The fault itself exists: on `orphanLinkActor`, which has a link and
no profile, `BindAnchors` alone faults while `RebuildChain` completes. -/
theorem RebuildChain_total (s : AChainInstanceActor) :
    (∃ b t, s.ClearChain.BuildChain = some b ∧ b.BindAnchors = some t ∧
      s.RebuildChain = some t ∧
      (b.LinkComponents ≠ [] → ∃ P, b.Profile = some P) ∧
      (b.Profile = none → b.LinkComponents = [])) ∧
    orphanLinkActor.BindAnchors = none ∧
    (∃ t, orphanLinkActor.RebuildChain = some t) := by
  refine ⟨?_, BindAnchors_none_of_no_profile orphanLinkActor rfl (by decide),
    ⟨_, RebuildChain_absent orphanLinkActor rfl⟩⟩
  cases hP : s.Profile with
  | none =>
    have hP1 : s.ClearChain.Profile = none := by
      simpa [AChainInstanceActor.ClearChain] using hP
    have hB : s.ClearChain.BuildChain = some s.ClearChain := by
      unfold AChainInstanceActor.BuildChain
      simp [hP1]
    have hL : s.ClearChain.LinkComponents = [] := by
      simp [AChainInstanceActor.ClearChain]
    refine ⟨s.ClearChain, s.ClearChain, hB, ?_, RebuildChain_absent s hP, ?_, fun _ => hL⟩
    · simp [AChainInstanceActor.BindAnchors, hL]
    · intro hne
      exact absurd hL hne
  | some P =>
    obtain ⟨Links, hR, _⟩ := RebuildChain_present s P hP
    have hP1 : (builtState s P).Profile = some P := by
      simpa [builtState, AChainInstanceActor.ClearChain] using hP
    have hB : (builtState s P).BindAnchors =
        some { builtState s P with LinkComponents := Links } := by
      have := hR
      unfold AChainInstanceActor.RebuildChain at this
      simpa only [ClearChain_BuildChain_eq s P hP] using this
    refine ⟨builtState s P, _, ClearChain_BuildChain_eq s P hP, hB, hR,
      fun _ => ⟨P, hP1⟩, ?_⟩
    intro hnone
    rw [hP1] at hnone
    cases hnone

/-- C23: degenerate LOD levels are inert. A level selected by
`GetLODIndexForDistance` is never one with `MinDistance > MaxDistance`, and
`GetSegmentCountAtDistance(D)` is the same for the profile and for the
profile with every such level removed from its table. For the table
`[200,100]` (override 9), `[0,1000]` (override 4) and distance 150 the second
level is selected and the count is 4, with or without the first level. -/
theorem degenerate_levels_inert (P : UChainProfile) (D : FFloat) :
    (∀ (i : Nat) (L : FChainLODLevel), P.GetLODIndexForDistance D = (i : Int) →
      P.LODLevels[i]? = some L → FFloat.gt L.MinDistance L.MaxDistance = false) ∧
    P.withoutDegenerate.GetSegmentCountAtDistance D = P.GetSegmentCountAtDistance D ∧
    degenerateProfile.GetLODIndexForDistance 150 = 1 ∧
    degenerateProfile.GetSegmentCountAtDistance 150 = some 4 ∧
    degenerateProfile.withoutDegenerate.GetSegmentCountAtDistance 150 = some 4 := by
  refine ⟨?_, ?_, by decide, by decide, by decide⟩
  · intro i L hi hL
    rcases GetLODIndexForDistance_cases P D with h | ⟨i0, L0, h, hL0, hc⟩
    · rw [h] at hi
      exact absurd hi (INDEX_NONE_ne_natCast i)
    · rw [h] at hi
      have : i0 = i := by exact_mod_cast hi
      subst this
      rw [hL0] at hL
      cases hL
      exact Contains_not_Degenerate _ _ hc
  · rw [GetSegmentCountAtDistance_eq_resolve, GetSegmentCountAtDistance_eq_resolve]
    have hfind := find?_filter_of_imp (fun L : FChainLODLevel => !L.Degenerate)
      (fun L => decide (L.Contains (FMath.MaxFloat 0 D)))
      (fun L hq => by
        have hc : L.Contains (FMath.MaxFloat 0 D) := of_decide_eq_true hq
        simp [Contains_not_Degenerate L _ hc])
      P.LODLevels
    simp only [resolveSegmentCount, UChainProfile.withoutDegenerate, hfind]

/-- C9: `BreakLink` is isolated. In every state the class produces (reached
from an Empty state by any sequence of `InitializeFromProfile`,
`RebuildChain`, `SetStartAnchor`, `SetEndAnchor`, `SetTargetLength`,
`BreakLink` and profile changes) and for every valid joint index `i`, entry
`i` is a joint, no other entry is the same object, and `BreakLink(i)` returns
the state in which that joint is marked broken and nothing else differs:
links, anchors, segment count and every other field are the same, the joint
list has the same length and the same entries elsewhere, and joint `i` keeps
its endpoints and configuration. -/
theorem BreakLink_isolated_on_produced_states (s0 : AChainInstanceActor)
    (ops : List ChainOp) (i : Int)
    (hLinks : s0.LinkComponents = []) (hJoints : s0.ConstraintComponents = []) :
    ∃ s, runOps ops s0 = some s ∧
      (TArray.IsValidIndex s.ConstraintComponents i = true →
        ∃ J Joints, s.ConstraintComponents[i.toNat]? = some (some J) ∧
          s.BreakLink i = some { s with ConstraintComponents := Joints } ∧
          Joints.length = s.ConstraintComponents.length ∧
          Joints[i.toNat]? = some (some { J with bBroken := true }) ∧
          (∀ j : Nat, j ≠ i.toNat → Joints[j]? = s.ConstraintComponents[j]?) ∧
          (∀ (j : Nat) (J1 : UPhysicsConstraintComponent), j ≠ i.toNat →
            s.ConstraintComponents[j]? = some (some J1) → J1.ObjectId ≠ J.ObjectId)) := by
  obtain ⟨s, hs, _⟩ := runOps_invariant ops s0 (Or.inl ⟨hLinks, hJoints⟩)
  have hw := runOps_wellFormed ops s0 s hs (wellFormed_of_empty s0 hLinks hJoints)
  refine ⟨s, hs, ?_⟩
  intro hv
  obtain ⟨hi0, hi1⟩ := (IsValidIndex_iff _ _).1 hv
  have hlt : i.toNat < s.ConstraintComponents.length := by omega
  obtain ⟨_, hC, _, hdC⟩ := hw
  cases hx : s.ConstraintComponents[i.toNat] with
  | none =>
    exact absurd hx (hC _ (List.getElem_mem hlt))
  | some J =>
    have hJ : s.ConstraintComponents[i.toNat]? = some (some J) := by
      rw [List.getElem?_eq_getElem hlt, hx]
    refine ⟨J, _, hJ, BreakLink_of_joint s i J hi0 hJ, by simp,
      by simp [List.getElem?_set, hlt], ?_, ?_⟩
    · intro j hj
      simp [List.getElem?_set, Ne.symm hj]
    · intro j J1 hj hJ1 hid
      exact hj (hdC j i.toNat J1 J hJ1 hJ hid)

/-- C9 at `exampleActor` after one rebuild, index 0: the index is valid, the
entry is a joint, and `BreakLink(0)` marks it broken. -/
theorem BreakLink_isolated_on_produced_states_witness :
    ∃ s J Joints, runOps [.RebuildChain] exampleActor = some s ∧
      TArray.IsValidIndex s.ConstraintComponents 0 = true ∧
      s.ConstraintComponents[0]? = some (some J) ∧
      s.BreakLink 0 = some { s with ConstraintComponents := Joints } ∧
      Joints[0]? = some (some { J with bBroken := true }) := by
  obtain ⟨s, hs, h⟩ :=
    BreakLink_isolated_on_produced_states exampleActor [.RebuildChain] 0 rfl rfl
  have hv : TArray.IsValidIndex s.ConstraintComponents 0 = true := by
    have hm : (runOps [.RebuildChain] exampleActor).map
        (fun t => TArray.IsValidIndex t.ConstraintComponents 0) = some true := by decide
    rw [hs] at hm
    simpa using hm
  obtain ⟨J, Joints, h1, h2, _, h4, _⟩ := h hv
  exact ⟨s, J, Joints, hs, hv, h1, h2, h4⟩

/-- C10: with the profile's `bSupportsLooseEnd = true`, for every prior state,
every start anchor and every end anchor, the link list `BindAnchors` is
called on (the one `ClearChain(); BuildChain()` leaves) is non-empty, its
last link is a link and a different object from link 0, and `BindAnchors`
completes and leaves that last link exactly as it was: same world position,
same attachment, same every other attribute. -/
theorem BindAnchors_loose_end_keeps_last_link (s : AChainInstanceActor) (P : UChainProfile)
    (hP : s.Profile = some P) (hloose : P.bSupportsLooseEnd = true) :
    ∃ b t L0 Ln, s.ClearChain.BuildChain = some b ∧ b.BindAnchors = some t ∧
      s.RebuildChain = some t ∧
      b.LinkComponents ≠ [] ∧
      b.LinkComponents[0]? = some (some L0) ∧
      b.LinkComponents.getLast? = some (some Ln) ∧
      L0.ObjectId ≠ Ln.ObjectId ∧
      t.LinkComponents.getLast? = some (some Ln) ∧
      t.LinkComponents.length = b.LinkComponents.length := by
  obtain ⟨hN2, _, _⟩ := toNat_Max_two P.Visual.DefaultSegmentCount
  obtain ⟨Links, hR, _⟩ := RebuildChain_present s P hP
  have hP1 : (builtState s P).Profile = some P := by
    simpa [builtState, AChainInstanceActor.ClearChain] using hP
  have hB : (builtState s P).BindAnchors =
      some { builtState s P with LinkComponents := Links } := by
    have := hR
    unfold AChainInstanceActor.RebuildChain at this
    simpa only [ClearChain_BuildChain_eq s P hP] using this
  have hlenB : (builtState s P).LinkComponents.length =
      (FMath.Max 2 P.Visual.DefaultSegmentCount).toNat := by
    simp [builtState, builtLinks_length]
  obtain ⟨L0, h0, hid0, _⟩ := builtLinks_getElem? P s.NextObjectId
    (FMath.Max 2 P.Visual.DefaultSegmentCount).toNat 0 (by omega)
  obtain ⟨Ln, hn, hidn, _⟩ := builtLinks_getElem? P s.NextObjectId
    (FMath.Max 2 P.Visual.DefaultSegmentCount).toNat
    ((FMath.Max 2 P.Visual.DefaultSegmentCount).toNat - 1) (by omega)
  have hlastB : (builtState s P).LinkComponents.getLast? = some (some Ln) := by
    rw [List.getLast?_eq_getElem?, hlenB]
    simpa [builtState] using hn
  have hne : ¬ (builtState s P).LinkComponents.length = 0 := by omega
  have hkeep : Links.getLast? = (builtState s P).LinkComponents.getLast? ∧
      Links.length = (builtState s P).LinkComponents.length := by
    have ht := hB
    unfold AChainInstanceActor.BindAnchors at ht
    simp only [hne, if_false] at ht
    split at ht
    · cases ht
    · rename_i s1 h1
      obtain ⟨hP2, hlast, hl⟩ := anchorLink0_getLast? (builtState s P) s1 h1 (by omega)
      rw [anchorLastLink_loose s1 P (hP2.trans hP1) hloose] at ht
      cases ht
      exact ⟨hlast, hl⟩
  refine ⟨builtState s P, _, L0, Ln, ClearChain_BuildChain_eq s P hP, hB, hR, ?_,
    by simpa [builtState] using h0, hlastB, by omega, ?_, hkeep.2⟩
  · intro hnil
    rw [hnil] at hne
    exact hne rfl
  · show Links.getLast? = some (some Ln)
    rw [hkeep.1]
    exact hlastB

/-- C10 at `twoLinkActor`, whose profile has a loose end and whose start anchor
is the world point `(1, 2, 3)`: the rebuild completes and the last link built
is left as built. -/
theorem BindAnchors_loose_end_keeps_last_link_witness :
    ∃ b t Ln, twoLinkActor.ClearChain.BuildChain = some b ∧ b.BindAnchors = some t ∧
      b.LinkComponents.getLast? = some (some Ln) ∧
      t.LinkComponents.getLast? = some (some Ln) := by
  obtain ⟨b, t, _, Ln, h1, h2, _, _, _, h6, _, h8, _⟩ :=
    BindAnchors_loose_end_keeps_last_link twoLinkActor { bSupportsLooseEnd := true } rfl rfl
  exact ⟨b, t, Ln, h1, h2, h6, h8⟩

end ChainConstraint
